import Mathlib

/-!
Verification development for the deterministic workflow execution engine
(TypeScript SDK): payload codec pipeline, failure taxonomy and wire mapping,
activation/completion serializer and the VM workflow scheduler, shallowly
embedded in Lean from the repository sources.

JavaScript values are embedded as the inductive `JsVal`; byte buffers
(`Uint8Array` contents) are embedded as the inductive `Bytes`, whose
constructors record which external encoder produced the bytes (the built-in
`JSON.stringify`/`JSON.parse` pair and the protobufjs encoders live outside
the repository and are modelled abstractly at that granularity).  Thrown
exceptions become `Except` errors, with `ConvErr` distinguishing the
exception classes the sources use.
-/

namespace SdkNode

mutual

/-- A JavaScript runtime value, as handled by the payload converters:
`undefined`, `null`, booleans, (integer) numbers, strings, arrays, plain
objects, `Uint8Array` buffers, and protobufjs message instances (a message
carries its namespaced type name, i.e. its `$type`, and its field record). -/
inductive JsVal where
  | undefV : JsVal
  | nullv : JsVal
  | boolv (b : Bool) : JsVal
  | num (n : Int) : JsVal
  | strv (s : String) : JsVal
  | arr (xs : List JsVal) : JsVal
  | obj (fields : List (String × JsVal)) : JsVal
  | buffer (content : Bytes) : JsVal
  | proto (typeName : String) (body : JsVal) : JsVal

/-- Contents of a byte buffer.  Constructors record the producer: UTF-8 text
(`u8(s)`), raw bytes, `u8(JSON.stringify v)`, a protobufjs binary encoding of
a message, or `u8(JSON.stringify(toProto3JSON m))`.  The external encoders are
injective taggings here; their inverses are defined below and are faithful to
the built-ins on the value fragments over which theorems are stated. -/
inductive Bytes where
  | utf8 (s : String) : Bytes
  | raw (bs : List Nat) : Bytes
  | utf8Json (v : JsVal) : Bytes
  | protoBin (typeName : String) (body : JsVal) : Bytes
  | protoJsonB (typeName : String) (body : JsVal) : Bytes

end

/-- A wire payload: optional metadata record (string keys to byte values) and
optional data bytes, as in `{metadata?: Record<string, Uint8Array>, data?:
Uint8Array}`. -/
structure Payload where
  metadata : Option (List (String × Bytes))
  data : Option Bytes

/-- Modelled from the spec: the converter error taxonomy (the repository's
`errors.ts` is not among the provided sources).  Value errors flag malformed
or unsupported payloads, `DataConverterError` flags converter
misconfiguration, `UnsupportedTypeError` is the internal signal that a codec
declines a value, and `jsError`/`typeError`/`illegalStateError` stand for the
remaining built-in JavaScript exception classes thrown by the sources. -/
inductive ConvErr where
  | unsupportedType : ConvErr
  | valueError (msg : String) : ConvErr
  | dataConverterError (msg : String) : ConvErr
  | typeError (msg : String) : ConvErr
  | jsError (msg : String) : ConvErr
  | illegalStateError (msg : String) : ConvErr
deriving DecidableEq

/-- Modelled from the spec: the metadata key identifying the encoding
(`converter/types.ts` is not among the provided sources). -/
def METADATA_ENCODING_KEY : String := "encoding"

/-- Modelled from the spec: the metadata key naming a structured payload's
concrete message type. -/
def METADATA_MESSAGE_TYPE_KEY : String := "messageType"

/-- Modelled from the spec: `str` decodes metadata bytes to text; applied to
an absent value or to bytes that are not a UTF-8 text literal it is abstracted
as the empty string (all metadata written by the embedded encoders is UTF-8
text). -/
def strOf : Option Bytes → String
  | some (.utf8 s) => s
  | _ => ""

/-- Lookup of a metadata key (JavaScript object property access). -/
def metaGet (m : List (String × Bytes)) (k : String) : Option Bytes :=
  (m.find? (fun kv => kv.1 = k)).map (fun kv => kv.2)

/-- Abstraction of `JSON.parse(str(data))`: inverts `u8(JSON.stringify v)`
bytes; any other bytes are abstracted as a parse failure (`SyntaxError`). -/
def jsonParseOfData : Bytes → Except ConvErr JsVal
  | .utf8Json v => .ok v
  | _ => .error (.jsError "SyntaxError: Unexpected token in JSON")

/-- Abstraction of `messageType.decode(data)`: protobufjs decodes binary
message bytes back to the field record; the declared type comes from the
payload metadata; non-protobuf bytes decode to a garbage (empty) message. -/
def protoDecode (typeName : String) : Bytes → JsVal
  | .protoBin _ body => .proto typeName body
  | _ => .proto typeName .undefV

/-- Abstraction of `protoJsonSerializer.fromProto3JSON(messageType,
JSON.parse(str(data)))`: inverts the proto3-JSON encoding; other bytes are
abstracted as a parse failure. -/
def protoJsonDecode (typeName : String) : Bytes → Except ConvErr JsVal
  | .protoJsonB _ body => .ok (.proto typeName body)
  | _ => .error (.jsError "SyntaxError: Unexpected token in JSON")

/-- A protobufjs `Root` is modelled as the set (list) of namespaced message
type names it can `lookupType`. -/
abbrev ProtoRoot := List String

/-- The concrete codec family `DataConverterWithEncoding`: the undefined,
binary, JSON and the two protobuf converters (each protobuf converter holds
its optional type-registry root). -/
inductive DataConverterWithEncoding where
  | UndefinedDataConverter : DataConverterWithEncoding
  | BinaryDataConverter : DataConverterWithEncoding
  | JsonDataConverter : DataConverterWithEncoding
  | ProtobufJsonDataConverter (root : Option ProtoRoot) : DataConverterWithEncoding
  | ProtobufBinaryDataConverter (root : Option ProtoRoot) : DataConverterWithEncoding
deriving DecidableEq

namespace DataConverterWithEncoding

/-- The `encodingType` of each codec (the values of `encodingTypes` in
`converter/types.ts`, modelled from the spec's encoding-key vocabulary). -/
def encodingType : DataConverterWithEncoding → String
  | .UndefinedDataConverter => "binary/null"
  | .BinaryDataConverter => "binary/plain"
  | .JsonDataConverter => "json/plain"
  | .ProtobufJsonDataConverter _ => "json/protobuf"
  | .ProtobufBinaryDataConverter _ => "binary/protobuf"

end DataConverterWithEncoding

/-- String coercion `String(value)` of a JavaScript value (used in error
messages and for non-Error throwables).  Arrays join their elements with
commas, objects render as `[object Object]`. -/
def displayJsVal : JsVal → String
  | .undefV => "undefined"
  | .nullv => "null"
  | .boolv true => "true"
  | .boolv false => "false"
  | .num n => toString n
  | .strv s => s
  | .arr xs => String.intercalate "," (displayList xs)
  | .obj _ => "[object Object]"
  | .buffer _ => ""
  | .proto _ _ => "[object Object]"
where
  /-- Displays each array element (`String` of each member). -/
  displayList : List JsVal → List String
    | [] => []
    | x :: xs => displayJsVal x :: displayList xs

/-- `validatePayload` of the abstract protobuf converter: requires data bytes,
a `messageType` metadata entry and a supplied `root`; an unregistered type
name raises `DataConverterError` (protobufjs `lookupType` throwing
`no such type`). -/
def validatePayload (root : Option ProtoRoot) (content : Payload) :
    Except ConvErr (String × Bytes) :=
  match content.data with
  | none => .error (.valueError "Got payload with no data")
  | some d =>
    match content.metadata with
    | none =>
      .error (.valueError ("Got protobuf payload without metadata." ++ METADATA_MESSAGE_TYPE_KEY))
    | some m =>
      if (metaGet m METADATA_MESSAGE_TYPE_KEY).isNone then
        .error (.valueError ("Got protobuf payload without metadata." ++ METADATA_MESSAGE_TYPE_KEY))
      else
        match root with
        | none =>
          .error (.dataConverterError
            "Unable to deserialize protobuf message without `root` being provided")
        | some reg =>
          let messageTypeName := strOf (metaGet m METADATA_MESSAGE_TYPE_KEY)
          if messageTypeName ∈ reg then .ok (messageTypeName, d)
          else
            .error (.dataConverterError
              ("Got a `" ++ messageTypeName ++
               "` protobuf message but cannot find corresponding message class in `root`"))

namespace DataConverterWithEncoding

/-- `toPayload` of each codec.  A codec declines a value by throwing
`UnsupportedTypeError` (the `unsupportedType` error); `isProtobufMessage`
holds exactly of protobufjs message instances (`JsVal.proto`). -/
def toPayload : DataConverterWithEncoding → JsVal → Except ConvErr Payload
  | .UndefinedDataConverter, v =>
    match v with
    | .undefV =>
      .ok { metadata := some [(METADATA_ENCODING_KEY, .utf8 "binary/null")], data := none }
    | _ => .error .unsupportedType
  | .BinaryDataConverter, v =>
    match v with
    | .buffer b =>
      .ok { metadata := some [(METADATA_ENCODING_KEY, .utf8 "binary/plain")], data := some b }
    | _ => .error .unsupportedType
  | .JsonDataConverter, v =>
    match v with
    | .undefV => .error .unsupportedType
    | _ =>
      .ok { metadata := some [(METADATA_ENCODING_KEY, .utf8 "json/plain")],
            data := some (.utf8Json v) }
  | .ProtobufJsonDataConverter _, v =>
    match v with
    | .proto typeName body =>
      .ok { metadata := some [(METADATA_ENCODING_KEY, .utf8 "json/protobuf"),
                              (METADATA_MESSAGE_TYPE_KEY, .utf8 typeName)],
            data := some (.protoJsonB typeName body) }
    | _ => .error .unsupportedType
  | .ProtobufBinaryDataConverter _, v =>
    match v with
    | .proto typeName body =>
      .ok { metadata := some [(METADATA_ENCODING_KEY, .utf8 "binary/protobuf"),
                              (METADATA_MESSAGE_TYPE_KEY, .utf8 typeName)],
            data := some (.protoBin typeName body) }
    | _ => .error .unsupportedType

/-- `fromPayload` of each codec. The binary converter returns `content.data`
as-is (`undefined` when absent); the JSON converter requires data bytes; the
protobuf converters validate and decode. -/
def fromPayload : DataConverterWithEncoding → Payload → Except ConvErr JsVal
  | .UndefinedDataConverter, _ => .ok .undefV
  | .BinaryDataConverter, p =>
    .ok (match p.data with
         | none => .undefV
         | some b => .buffer b)
  | .JsonDataConverter, p =>
    match p.data with
    | none => .error (.valueError "Got payload with no data")
    | some d => jsonParseOfData d
  | .ProtobufJsonDataConverter root, p => do
    let (typeName, d) ← validatePayload root p
    protoJsonDecode typeName d
  | .ProtobufBinaryDataConverter root, p => do
    let (typeName, d) ← validatePayload root p
    .ok (protoDecode typeName d)

end DataConverterWithEncoding

open DataConverterWithEncoding

/-- One `Map.set` step of the `converterByEncoding` construction: an existing
entry for the key is overwritten in place, otherwise the entry is appended. -/
def mapSet (m : List (String × DataConverterWithEncoding)) (k : String)
    (c : DataConverterWithEncoding) : List (String × DataConverterWithEncoding) :=
  if m.any (fun kv => kv.1 = k) then
    m.map (fun kv => if kv.1 = k then (k, c) else kv)
  else m ++ [(k, c)]

/-- `Map.get`. -/
def mapGet (m : List (String × DataConverterWithEncoding)) (k : String) :
    Option DataConverterWithEncoding :=
  (m.find? (fun kv => kv.1 = k)).map (fun kv => kv.2)

/-- The `converterByEncoding` map built by the `CompositeDataConverter`
constructor: one `Map.set` per converter in chain order. -/
def converterByEncoding (chain : List DataConverterWithEncoding) :
    List (String × DataConverterWithEncoding) :=
  chain.foldl (fun m c => mapSet m c.encodingType c) []

/-- `CompositeDataConverter.toPayload`: try each converter in order, continue
past `UnsupportedTypeError`, rethrow any other error; when no converter
accepts, throw `ValueError`. -/
def compositeToPayload (chain : List DataConverterWithEncoding) (v : JsVal) :
    Except ConvErr Payload :=
  match chain with
  | [] => .error (.valueError ("Cannot serialize " ++ displayJsVal v))
  | c :: rest =>
    match c.toPayload v with
    | .ok p => .ok p
    | .error .unsupportedType => compositeToPayload rest v
    | .error e => .error e

/-- `CompositeDataConverter.fromPayload`: missing metadata is a `ValueError`;
the encoding key selects the converter from `converterByEncoding`; an
unknown encoding is a `ValueError`; otherwise the selected converter's
`fromPayload` is delegated to. -/
def compositeFromPayload (chain : List DataConverterWithEncoding) (p : Payload) :
    Except ConvErr JsVal :=
  match p.metadata with
  | none => .error (.valueError "Missing payload metadata")
  | some m =>
    let encoding := strOf (metaGet m METADATA_ENCODING_KEY)
    match mapGet (converterByEncoding chain) encoding with
    | none => .error (.valueError ("Unknown encoding: " ++ encoding))
    | some c => c.fromPayload p

/-- The converter a composite `fromPayload` would delegate the payload to,
as a function of the payload's metadata alone. -/
def selectedConverter (chain : List DataConverterWithEncoding)
    (metadata : Option (List (String × Bytes))) : Option DataConverterWithEncoding :=
  match metadata with
  | none => none
  | some m => mapGet (converterByEncoding chain) (strOf (metaGet m METADATA_ENCODING_KEY))

/-- `DataConverter.toPayloads`: `undefined` for an empty argument list,
otherwise the per-value payloads (the first conversion error aborts). -/
def toPayloads (chain : List DataConverterWithEncoding) (values : List JsVal) :
    Except ConvErr (Option (List Payload)) :=
  match values with
  | [] => .ok none
  | _ => do
    let ps ← values.mapM (compositeToPayload chain)
    .ok (some ps)

/-- `DataConverter.fromPayloads index payloads`: absent (`undefined`/`null`)
payload lists and out-of-range indices yield `undefined` without error;
otherwise the indexed payload is decoded. -/
def compositeFromPayloads (chain : List DataConverterWithEncoding) (index : Nat)
    (payloads : Option (List Payload)) : Except ConvErr JsVal :=
  match payloads with
  | none => .ok .undefV
  | some ps =>
    if h : index < ps.length then compositeFromPayload chain (ps.get ⟨index, h⟩)
    else .ok .undefV

/-- The `DefaultDataConverter` chain, in its constructor's order. -/
def defaultConverters (root : Option ProtoRoot) : List DataConverterWithEncoding :=
  [.UndefinedDataConverter, .BinaryDataConverter, .ProtobufJsonDataConverter root,
   .ProtobufBinaryDataConverter root, .JsonDataConverter]

/-! ## Failure wire model

The proto `Failure` record is handled by the sources through unchecked casts:
the same object is viewed as wire form (payload-bearing), deserialized form
(value-bearing), and — after `serviceToCoreFailure` — as the worker-proto
shape in which payload lists are stored without their `{payloads}` wrapper.
The dynamic slots below mirror those casts: a `PayVal` is either a payload or
an already-decoded value, a `PaySlot` is either a payload list or a single
decoded value, and a `DetailsVal` is either a `{payloads}` wrapper record or
a bare slot. -/

/-- An element of a payloads list: a wire `Payload` or a decoded value. -/
inductive PayVal where
  | pay (p : Payload) : PayVal
  | val (v : JsVal) : PayVal

/-- The contents of a `payloads` property: a list, or (after the timeout
branch of `deserializeFailure`) a single decoded value. -/
inductive PaySlot where
  | items (l : List PayVal) : PaySlot
  | single (v : JsVal) : PaySlot

/-- A `{payloads?: ...}` wrapper record. -/
structure Payloads where
  payloads : Option PaySlot

/-- A details-bearing field: the `{payloads}` wrapper of the service proto, or
the bare payloads slot written by `serviceToCoreFailure`. -/
inductive DetailsVal where
  | wrapped (w : Payloads) : DetailsVal
  | slot (s : PaySlot) : DetailsVal

/-- The JavaScript access `x?.payloads` on a details-bearing field: a bare
slot (an array value) has no `payloads` property. -/
def detailsPayloads : Option DetailsVal → Option PaySlot
  | some (.wrapped w) => w.payloads
  | _ => none

/-- An `activityType` field: the service `{name}` record or the bare string
written by `serviceToCoreFailure`. -/
inductive ActivityTypeVal where
  | record (name : Option String) : ActivityTypeVal
  | flat (s : String) : ActivityTypeVal

/-- The JavaScript access `activityType?.name` (a string value has no `name`
property). -/
def activityTypeName : Option ActivityTypeVal → Option String
  | some (.record n) => n
  | _ => none

/-- A `workflowType` field: the service `{name}` record or the bare string
written by `serviceToCoreFailure`. -/
inductive WorkflowTypeVal where
  | record (name : Option String) : WorkflowTypeVal
  | flat (s : String) : WorkflowTypeVal

/-- The JavaScript access `workflowType?.name`. -/
def workflowTypeName : Option WorkflowTypeVal → Option String
  | some (.record n) => n
  | _ => none

/-- `temporal.api.common.v1.IWorkflowExecution`. -/
structure WorkflowExecutionRec where
  workflowId : Option String
  runId : Option String

/-- `applicationFailureInfo`. -/
structure ApplicationFailureInfo where
  typ : Option String
  nonRetryable : Option Bool
  details : Option DetailsVal

/-- `timeoutFailureInfo`. -/
structure TimeoutFailureInfo where
  timeoutType : Option Nat
  lastHeartbeatDetails : Option DetailsVal

/-- `canceledFailureInfo` (also reused for the worker-proto
`cancelledFailureInfo` key, which has the same `{details}` shape). -/
structure CanceledFailureInfo where
  details : Option DetailsVal

/-- `serverFailureInfo`. -/
structure ServerFailureInfo where
  nonRetryable : Option Bool

/-- `activityFailureInfo`. -/
structure ActivityFailureInfo where
  activityType : Option ActivityTypeVal
  activityId : Option String
  retryState : Option Nat
  identity : Option String

/-- `childWorkflowExecutionFailureInfo` (`namespc` stands for the source's
`namespace` field, a reserved word in Lean). -/
structure ChildWorkflowExecutionFailureInfo where
  namespc : Option String
  workflowExecution : Option WorkflowExecutionRec
  workflowType : Option WorkflowTypeVal
  retryState : Option Nat

/-- `resetWorkflowFailureInfo`. -/
structure ResetWorkflowFailureInfo where
  lastHeartbeatDetails : Option DetailsVal

/-- All fields of a `Failure` proto record except the recursive `cause`.
`cancelledFailureInfo` (double l) is the worker-proto key written by
`serviceToCoreFailure`, distinct from the service key `canceledFailureInfo`. -/
structure FailureBase where
  message : Option String
  stackTrace : Option String
  source : Option String
  applicationFailureInfo : Option ApplicationFailureInfo
  timeoutFailureInfo : Option TimeoutFailureInfo
  canceledFailureInfo : Option CanceledFailureInfo
  cancelledFailureInfo : Option CanceledFailureInfo
  terminatedFailureInfo : Option Unit
  serverFailureInfo : Option ServerFailureInfo
  activityFailureInfo : Option ActivityFailureInfo
  childWorkflowExecutionFailureInfo : Option ChildWorkflowExecutionFailureInfo
  resetWorkflowFailureInfo : Option ResetWorkflowFailureInfo

/-- A `Failure` proto record: its non-recursive fields and its optional
`cause`. -/
inductive Failure where
  | mk (base : FailureBase) (cause : Option Failure) : Failure

/-- Projection to the non-recursive fields. -/
def Failure.base : Failure → FailureBase
  | .mk b _ => b

/-- Projection to the `cause` field. -/
def Failure.cause : Failure → Option Failure
  | .mk _ c => c

/-- A `FailureBase` with every field absent. -/
def emptyBase : FailureBase :=
  { message := none, stackTrace := none, source := none, applicationFailureInfo := none,
    timeoutFailureInfo := none, canceledFailureInfo := none, cancelledFailureInfo := none,
    terminatedFailureInfo := none, serverFailureInfo := none, activityFailureInfo := none,
    childWorkflowExecutionFailureInfo := none, resetWorkflowFailureInfo := none }

/-! ## Error taxonomy -/

/-- The `info`-variant part of a `TemporalFailure` subclass: which subclass
the error is, together with its variant-specific constructor fields. -/
inductive TVariant where
  | base : TVariant
  | application (typ : Option String) (nonRetryable : Bool)
      (details : Option (List JsVal)) : TVariant
  | server (nonRetryable : Bool) : TVariant
  | cancelled (details : Option (List JsVal)) : TVariant
  | terminated : TVariant
  | timeout (lastHeartbeatDetails : JsVal) (timeoutType : Nat) : TVariant
  | activity (activityType : String) (activityId : Option String) (retryState : Nat)
      (identity : Option String) : TVariant
  | childWorkflow (namespc : Option String) (execution : WorkflowExecutionRec)
      (workflowType : String) (retryState : Nat) : TVariant

/-- A JavaScript throwable: a `TemporalFailure` (sub)class instance with its
message, stack, cached wire `failure` and cause; a plain `Error`; a thrown
string; a thrown `Failure` proto record; or any other thrown value. -/
inductive JsError where
  | temporal (message : String) (stack : Option String) (fcache : Option Failure)
      (cause : Option JsError) (info : TVariant) : JsError
  | plainError (name : String) (message : String) (stack : Option String) : JsError
  | strThrow (s : String) : JsError
  | failureRec (f : Failure) : JsError
  | otherThrow (v : JsVal) : JsError

/-- The `name` class field of each error class. -/
def JsError.errName : JsError → String
  | .temporal _ _ _ _ .base => "TemporalFailure"
  | .temporal _ _ _ _ (.application ..) => "ApplicationFailure"
  | .temporal _ _ _ _ (.server _) => "ServerFailure"
  | .temporal _ _ _ _ (.cancelled _) => "CancelledFailure"
  | .temporal _ _ _ _ .terminated => "TerminatedFailure"
  | .temporal _ _ _ _ (.timeout ..) => "TimeoutFailure"
  | .temporal _ _ _ _ (.activity ..) => "ActivityFailure"
  | .temporal _ _ _ _ (.childWorkflow ..) => "ChildWorkflowFailure"
  | .plainError n _ _ => n
  | .strThrow _ => ""
  | .failureRec _ => ""
  | .otherThrow _ => ""

/-- `new TemporalFailure(message, cause)` (message defaults to the empty
string as with `Error`; a fresh instance has no stack capture modelled and no
cached wire failure). -/
def mkTemporalFailure (message : Option String) (cause : Option JsError) : JsError :=
  .temporal (message.getD "") none none cause .base

/-- `new ApplicationFailure(message, type, nonRetryable, details, cause)`. -/
def mkApplicationFailure (message : Option String) (typ : Option String) (nonRetryable : Bool)
    (details : Option (List JsVal)) (cause : Option JsError) : JsError :=
  .temporal (message.getD "") none none cause (.application typ nonRetryable details)

/-- `new ServerFailure(message, nonRetryable, cause)`. -/
def mkServerFailure (message : Option String) (nonRetryable : Bool)
    (cause : Option JsError) : JsError :=
  .temporal (message.getD "") none none cause (.server nonRetryable)

/-- `new CancelledFailure(message, details, cause)`. -/
def mkCancelledFailure (message : Option String) (details : Option (List JsVal))
    (cause : Option JsError) : JsError :=
  .temporal (message.getD "") none none cause (.cancelled details)

/-- `new TerminatedFailure(message, cause)`. -/
def mkTerminatedFailure (message : Option String) (cause : Option JsError) : JsError :=
  .temporal (message.getD "") none none cause .terminated

/-- `new TimeoutFailure(message, lastHeartbeatDetails, timeoutType)`: the
constructor passes no cause to `super`. -/
def mkTimeoutFailure (message : Option String) (lastHeartbeatDetails : JsVal)
    (timeoutType : Nat) : JsError :=
  .temporal (message.getD "") none none none (.timeout lastHeartbeatDetails timeoutType)

/-- `new ActivityFailure(activityType, activityId, retryState, identity,
cause)`: the message is fixed by the constructor. -/
def mkActivityFailure (activityType : String) (activityId : Option String) (retryState : Nat)
    (identity : Option String) (cause : Option JsError) : JsError :=
  .temporal "Activity execution failed" none none cause
    (.activity activityType activityId retryState identity)

/-- `new ChildWorkflowFailure(namespace, execution, workflowType, retryState,
cause)`: the message is fixed by the constructor. -/
def mkChildWorkflowFailure (namespc : Option String) (execution : WorkflowExecutionRec)
    (workflowType : String) (retryState : Nat) (cause : Option JsError) : JsError :=
  .temporal "Child Workflow execution failed" none none cause
    (.childWorkflow namespc execution workflowType retryState)

/-- JavaScript truthiness of a value. -/
def truthyJsVal : JsVal → Bool
  | .undefV => false
  | .nullv => false
  | .boolv b => b
  | .num n => n ≠ 0
  | .strv s => s ≠ ""
  | _ => true

/-- JavaScript truthiness of a throwable (error objects are truthy; thrown
strings and other values follow value truthiness). -/
def truthyJsError : JsError → Bool
  | .strThrow s => s ≠ ""
  | .otherThrow v => truthyJsVal v
  | _ => true

/-- `FAILURE_SOURCE`. -/
def FAILURE_SOURCE : String := "TypeScriptSDK"

/-- A stack-trace line matching one of `CUTTOFF_STACK_PATTERNS` (the two
framework-boundary regexes are abstracted as tests for their distinguishing
literal fragments). -/
def matchesCutoffPattern (line : String) : Bool :=
  (line.containsSubstr "at Activity.execute (" && line.containsSubstr "/activity.") ||
  (line.containsSubstr "NextHandler (webpack-internal:" && line.containsSubstr "/internals.")

/-- `cutoffStackTrace`: keep the lines before the first framework-boundary
line. -/
def cutoffStackTrace (stack : Option String) : String :=
  String.intercalate "\n" (((stack.getD "").splitOn "\n").takeWhile
    (fun line => !matchesCutoffPattern line))

/-- A `Payload` record viewed as a plain JavaScript value (for the misuse
paths in which a wire payload reaches a value position). -/
def payloadAsJsVal (p : Payload) : JsVal :=
  .obj ((match p.metadata with
         | some m => [("metadata", JsVal.obj (m.map (fun kv => (kv.1, JsVal.buffer kv.2))))]
         | none => []) ++
        (match p.data with
         | some d => [("data", JsVal.buffer d)]
         | none => []))

/-- A payloads-list element viewed as a plain value (decoded elements are
themselves; payload elements are their records). -/
def payValAsJsVal : PayVal → JsVal
  | .val v => v
  | .pay p => payloadAsJsVal p

/-- A decoded value consumed as a `Payload` record: its `metadata`/`data`
properties are read off the object shape (absent on non-objects). -/
def jsvalAsPayloadRecord : JsVal → Payload
  | .obj fs =>
    { metadata :=
        ((fs.find? (fun kv => kv.1 = "metadata")).map (fun kv => kv.2)).bind
          (fun mv =>
            match mv with
            | .obj mfs => some (mfs.filterMap (fun kv =>
                match kv.2 with
                | .buffer b => some (kv.1, b)
                | _ => none))
            | _ => none),
      data :=
        ((fs.find? (fun kv => kv.1 = "data")).map (fun kv => kv.2)).bind
          (fun dv =>
            match dv with
            | .buffer b => some b
            | _ => none) }
  | _ => { metadata := none, data := none }

/-- A payloads-list element consumed as a `Payload`. -/
def payValAsPayload : PayVal → Payload
  | .pay p => p
  | .val v => jsvalAsPayloadRecord v

/-- `arrayFromPayloads(converter, content)` applied to a payloads slot: an
absent slot yields `[]`; a single-value slot has no `.map` method
(`TypeError`, a path no theorem exercises). -/
def arrayFromPayloadsSlot (chain : List DataConverterWithEncoding)
    (slot : Option PaySlot) : Except ConvErr (List JsVal) :=
  match slot with
  | none => .ok []
  | some (.items l) => l.mapM (fun pv => compositeFromPayload chain (payValAsPayload pv))
  | some (.single _) => .error (.typeError "content.map is not a function")

/-- `fromPayloads(0, slot)`: an absent slot or an empty list yields
`undefined`; a single-value slot crashes on its missing `length`/index
properties (a path no theorem exercises). -/
def fromPayloadsSlot (chain : List DataConverterWithEncoding)
    (slot : Option PaySlot) : Except ConvErr JsVal :=
  match slot with
  | none => .ok .undefV
  | some (.items []) => .ok .undefV
  | some (.items (pv :: _)) => compositeFromPayload chain (payValAsPayload pv)
  | some (.single _) => .error (.typeError "payloads is not indexable")

/-- The gate `x?.payloads?.length` used by `serializeFailure`: passes exactly
when the slot is a non-empty list (a single-value slot has no `length`). -/
def lengthGate (d : Option DetailsVal) : Option (List PayVal) :=
  match detailsPayloads d with
  | some (.items (p :: ps)) => some (p :: ps)
  | _ => none

/-- Re-encode one details-bearing field for `serializeFailure`: when the
length gate passes, `payloads` is replaced by `toPayloads(...payloads)`. -/
def reencodeDetails (chain : List DataConverterWithEncoding) (d : Option DetailsVal) :
    Except ConvErr (Option DetailsVal) :=
  match lengthGate d with
  | some l => do
    let res ← toPayloads chain (l.map payValAsJsVal)
    .ok (some (.wrapped ⟨res.map (fun ps => .items (ps.map .pay))⟩))
  | none => .ok d

/-- `serializeFailure(failure, dataConverter)`: convert the cause first, then
re-encode the four payload-bearing detail fields in place when their
`payloads?.length` gate passes. -/
def serializeFailure (chain : List DataConverterWithEncoding) :
    Failure → Except ConvErr Failure
  | .mk b cause => do
    let cause' ←
      match cause with
      | none => pure none
      | some c => do
        let c' ← serializeFailure chain c
        pure (some c')
    let appInfo ←
      match b.applicationFailureInfo with
      | none => pure none
      | some i => do
        let d ← reencodeDetails chain i.details
        pure (some { i with details := d })
    let timeoutInfo ←
      match b.timeoutFailureInfo with
      | none => pure none
      | some i => do
        let d ← reencodeDetails chain i.lastHeartbeatDetails
        pure (some { i with lastHeartbeatDetails := d })
    let canceledInfo ←
      match b.canceledFailureInfo with
      | none => pure none
      | some i => do
        let d ← reencodeDetails chain i.details
        pure (some { i with details := d })
    let resetInfo ←
      match b.resetWorkflowFailureInfo with
      | none => pure none
      | some i => do
        let d ← reencodeDetails chain i.lastHeartbeatDetails
        pure (some { i with lastHeartbeatDetails := d })
    .ok (Failure.mk
      { b with applicationFailureInfo := appInfo, timeoutFailureInfo := timeoutInfo,
               canceledFailureInfo := canceledInfo, resetWorkflowFailureInfo := resetInfo }
      cause')

/-- The `{payloads: ...}` wrapper built around a freshly encoded payload
list. -/
def wrapPayloads (ps : Option (List Payload)) : DetailsVal :=
  .wrapped ⟨ps.map (fun l => .items (l.map .pay))⟩

/-- The common fields of a wire failure synthesized by `errorToFailure`. -/
def failureCommon (message : Option String) (stack : Option String) : FailureBase :=
  { emptyBase with message := message, stackTrace := some (cutoffStackTrace stack),
                   source := some FAILURE_SOURCE }

mutual

/-- `errorToFailure(err, dataConverter)`: a `TemporalFailure` with a cached
wire failure is re-serialized; otherwise its cause is converted, the common
fields are assembled (with the stack trace cut at the framework boundary),
and the info variant matching the error's subclass is attached, encoding any
detail values through the codec chain.  Non-taxonomy errors synthesize a
bare failure from their message (or string coercion). -/
def errorToFailure (chain : List DataConverterWithEncoding) :
    JsError → Except ConvErr Failure
  | .temporal message stack fcache cause info =>
    match fcache with
    | some f => serializeFailure chain f
    | none => do
      let causeF ← optionalErrorToOptionalFailure chain cause
      let base : FailureBase := failureCommon (some message) stack
      match info with
      | .activity activityType activityId retryState identity =>
        let i : ActivityFailureInfo :=
          ⟨some (.record (some activityType)), activityId, some retryState, identity⟩
        .ok (.mk { base with activityFailureInfo := some i } causeF)
      | .childWorkflow namespc execution workflowType retryState =>
        let i : ChildWorkflowExecutionFailureInfo :=
          ⟨namespc, some execution, some (.record (some workflowType)), some retryState⟩
        .ok (.mk { base with childWorkflowExecutionFailureInfo := some i } causeF)
      | .application typ nonRetryable details =>
        match details with
        | some (d :: ds) => do
          let ps ← toPayloads chain (d :: ds)
          let i : ApplicationFailureInfo := ⟨typ, some nonRetryable, some (wrapPayloads ps)⟩
          .ok (.mk { base with applicationFailureInfo := some i } causeF)
        | _ =>
          let i : ApplicationFailureInfo := ⟨typ, some nonRetryable, none⟩
          .ok (.mk { base with applicationFailureInfo := some i } causeF)
      | .cancelled details =>
        match details with
        | some (d :: ds) => do
          let ps ← toPayloads chain (d :: ds)
          let i : CanceledFailureInfo := ⟨some (wrapPayloads ps)⟩
          .ok (.mk { base with canceledFailureInfo := some i } causeF)
        | _ => .ok (.mk { base with canceledFailureInfo := some ⟨none⟩ } causeF)
      | .timeout lastHeartbeatDetails timeoutType =>
        if truthyJsVal lastHeartbeatDetails then do
          let ps ← toPayloads chain [lastHeartbeatDetails]
          let i : TimeoutFailureInfo := ⟨some timeoutType, some (wrapPayloads ps)⟩
          .ok (.mk { base with timeoutFailureInfo := some i } causeF)
        else
          let i : TimeoutFailureInfo := ⟨some timeoutType, none⟩
          .ok (.mk { base with timeoutFailureInfo := some i } causeF)
      | .terminated => .ok (.mk { base with terminatedFailureInfo := some () } causeF)
      | .server nonRetryable =>
        .ok (.mk { base with serverFailureInfo := some ⟨some nonRetryable⟩ } causeF)
      | .base => .ok (.mk base causeF)
  | .plainError _ message stack =>
    .ok (.mk (failureCommon (some message) stack) none)
  | .strThrow s =>
    .ok (.mk { emptyBase with message := some s, source := some FAILURE_SOURCE } none)
  | .failureRec _ =>
    .ok (.mk { emptyBase with message := some "[object Object]", source := some FAILURE_SOURCE }
      none)
  | .otherThrow v =>
    .ok (.mk { emptyBase with message := some (displayJsVal v), source := some FAILURE_SOURCE }
      none)

/-- `optionalErrorToOptionalFailure`: `err ? await errorToFailure(err, dc) :
undefined` (a falsy throwable converts to `undefined`). -/
def optionalErrorToOptionalFailure (chain : List DataConverterWithEncoding) :
    Option JsError → Except ConvErr (Option Failure)
  | none => .ok none
  | some e =>
    if truthyJsError e then do
      let f ← errorToFailure chain e
      .ok (some f)
    else .ok none

end

/-- `serviceToCoreFailure`: re-shape a service-proto failure into the
worker-proto shape, recursing into the cause; payload-bearing `{payloads}`
wrappers are unwrapped into bare slots, `canceledFailureInfo` is re-keyed as
`cancelledFailureInfo`, and `activityType`/`workflowType` records collapse to
their names. -/
def serviceToCoreFailure : Option Failure → Option Failure
  | none => none
  | some (.mk b cause) =>
    let base : FailureBase :=
      { emptyBase with message := b.message, stackTrace := b.stackTrace, source := b.source }
    let cause' := serviceToCoreFailure cause
    match b.serverFailureInfo with
    | some s => some (.mk { base with serverFailureInfo := some s } cause')
    | none =>
    match b.timeoutFailureInfo with
    | some t =>
      let i : TimeoutFailureInfo :=
        ⟨t.timeoutType, (detailsPayloads t.lastHeartbeatDetails).map (fun s => .slot s)⟩
      some (.mk { base with timeoutFailureInfo := some i } cause')
    | none =>
    match b.canceledFailureInfo with
    | some c =>
      let i : CanceledFailureInfo := ⟨(detailsPayloads c.details).map (fun s => .slot s)⟩
      some (.mk { base with cancelledFailureInfo := some i } cause')
    | none =>
    match b.activityFailureInfo with
    | some a =>
      let i := { a with activityType := (activityTypeName a.activityType).map (fun n => .flat n) }
      some (.mk { base with activityFailureInfo := some i } cause')
    | none =>
    match b.terminatedFailureInfo with
    | some t => some (.mk { base with terminatedFailureInfo := some t } cause')
    | none =>
    match b.applicationFailureInfo with
    | some i =>
      let j := { i with details := (detailsPayloads i.details).map (fun s => DetailsVal.slot s) }
      some (.mk { base with applicationFailureInfo := some j } cause')
    | none =>
    match b.resetWorkflowFailureInfo with
    | some r =>
      let i : ResetWorkflowFailureInfo :=
        ⟨(detailsPayloads r.lastHeartbeatDetails).map (fun s => .slot s)⟩
      some (.mk { base with resetWorkflowFailureInfo := some i } cause')
    | none =>
    match b.childWorkflowExecutionFailureInfo with
    | some w =>
      let i := { w with workflowType := (workflowTypeName w.workflowType).map (fun n => .flat n) }
      some (.mk { base with childWorkflowExecutionFailureInfo := some i } cause')
    | none => some (.mk base cause')

/-- Assignment of the common properties in `failureToError`: `err.stack =
failure.stackTrace ?? ''; err.failure = serviceToCoreFailure(failure) ??
undefined` (the inner conversion only produces taxonomy errors, so the
non-temporal fallback is the identity). -/
def withStackAndFailure : JsError → String → Option Failure → JsError
  | .temporal m _ _ c i, st, fc => .temporal m (some st) fc c i
  | e, _, _ => e

mutual

/-- `failureToError(failure, dataConverter)` (worker variant): the typed
error from the inner dispatch, with stack and cached worker-shaped wire
failure attached. -/
def failureToError (chain : List DataConverterWithEncoding) (f : Failure) :
    Except ConvErr JsError := do
  let e ← failureToErrorInner chain f
  .ok (withStackAndFailure e (f.base.stackTrace.getD "") (serviceToCoreFailure (some f)))

/-- `optionalFailureToOptionalError` (worker variant). -/
def optionalFailureToOptionalError (chain : List DataConverterWithEncoding) :
    Option Failure → Except ConvErr (Option JsError)
  | none => .ok none
  | some f => do
    let e ← failureToError chain f
    .ok (some e)

/-- `failureToErrorInner(failure, dataConverter)` (worker variant): dispatch
on the info variants in source order — application, server, timeout,
terminated, cancelled, reset-workflow, activity — decoding detail payloads
and recursing into the cause; any other failure (including one carrying
`childWorkflowExecutionFailureInfo`, for which this variant has no branch)
falls through to the base `TemporalFailure`, whose construction passes
`undefined` in the cause position. -/
def failureToErrorInner (chain : List DataConverterWithEncoding) (f : Failure) :
    Except ConvErr JsError :=
  match f with
  | .mk b cause =>
    match b.applicationFailureInfo with
    | some info => do
      let details ← arrayFromPayloadsSlot chain (detailsPayloads info.details)
      let causeE ← optionalFailureToOptionalError chain cause
      .ok (mkApplicationFailure b.message info.typ (info.nonRetryable.getD false)
        (some details) causeE)
    | none =>
    match b.serverFailureInfo with
    | some info => do
      let causeE ← optionalFailureToOptionalError chain cause
      .ok (mkServerFailure b.message (info.nonRetryable.getD false) causeE)
    | none =>
    match b.timeoutFailureInfo with
    | some info => do
      let lastHeartbeatDetails ← fromPayloadsSlot chain
        (detailsPayloads info.lastHeartbeatDetails)
      .ok (mkTimeoutFailure b.message lastHeartbeatDetails (info.timeoutType.getD 0))
    | none =>
    match b.terminatedFailureInfo with
    | some _ => do
      let causeE ← optionalFailureToOptionalError chain cause
      .ok (mkTerminatedFailure b.message causeE)
    | none =>
    match b.canceledFailureInfo with
    | some info => do
      let details ← arrayFromPayloadsSlot chain (detailsPayloads info.details)
      let causeE ← optionalFailureToOptionalError chain cause
      .ok (mkCancelledFailure b.message (some details) causeE)
    | none =>
    match b.resetWorkflowFailureInfo with
    | some info => do
      let details ← arrayFromPayloadsSlot chain (detailsPayloads info.lastHeartbeatDetails)
      let causeE ← optionalFailureToOptionalError chain cause
      .ok (mkApplicationFailure b.message (some "ResetWorkflow") false (some details) causeE)
    | none =>
    match b.activityFailureInfo with
    | some info =>
      match activityTypeName info.activityType with
      | some name =>
        if name.isEmpty then .error (.typeError "Missing activityType on activityFailureInfo")
        else do
          let causeE ← optionalFailureToOptionalError chain cause
          .ok (mkActivityFailure name info.activityId (info.retryState.getD 0)
            info.identity causeE)
      | none => .error (.typeError "Missing activityType on activityFailureInfo")
    | none => do
      let _ ← optionalFailureToOptionalError chain cause
      .ok (mkTemporalFailure b.message none)

end

/-- JavaScript truthiness of a payloads slot (arrays are truthy even when
empty; a single decoded value follows value truthiness). -/
def paySlotTruthy : PaySlot → Bool
  | .items _ => true
  | .single v => truthyJsVal v

/-- `deserializeFailure(failure, dataConverter)`: convert the cause first,
then decode in place: application details (when the `details` record exists)
and cancelled/reset-workflow details (when their `payloads` are truthy)
become decoded-value lists; timeout heartbeat details become the single
decoded first value. -/
def deserializeFailure (chain : List DataConverterWithEncoding) :
    Failure → Except ConvErr Failure
  | .mk b cause => do
    let cause' ←
      match cause with
      | none => pure none
      | some c => do
        let c' ← deserializeFailure chain c
        pure (some c')
    let appInfo ←
      match b.applicationFailureInfo with
      | some i =>
        match i.details with
        | some (.wrapped w) => do
          let vals ← arrayFromPayloadsSlot chain w.payloads
          pure (some { i with details := some (.wrapped ⟨some (.items (vals.map .val))⟩) })
        | some (.slot _) =>
          -- the property write on a bare array value is unobservable here
          pure (some i)
        | none => pure (some i)
      | none => pure none
    let timeoutInfo ←
      match b.timeoutFailureInfo with
      | some i =>
        match detailsPayloads i.lastHeartbeatDetails with
        | some s =>
          if paySlotTruthy s then do
            let v ← fromPayloadsSlot chain (some s)
            pure (some { i with lastHeartbeatDetails := some (.wrapped ⟨some (.single v)⟩) })
          else pure (some i)
        | none => pure (some i)
      | none => pure none
    let canceledInfo ←
      match b.canceledFailureInfo with
      | some i =>
        match detailsPayloads i.details with
        | some s =>
          if paySlotTruthy s then do
            let vals ← arrayFromPayloadsSlot chain (some s)
            pure (some { i with details := some (.wrapped ⟨some (.items (vals.map .val))⟩) })
          else pure (some i)
        | none => pure (some i)
      | none => pure none
    let resetInfo ←
      match b.resetWorkflowFailureInfo with
      | some i =>
        match detailsPayloads i.lastHeartbeatDetails with
        | some s =>
          if paySlotTruthy s then do
            let vals ← arrayFromPayloadsSlot chain (some s)
            let d : Option DetailsVal := some (.wrapped ⟨some (.items (vals.map .val))⟩)
            pure (some { i with lastHeartbeatDetails := d })
          else pure (some i)
        | none => pure (some i)
      | none => pure none
    .ok (Failure.mk
      { b with applicationFailureInfo := appInfo, timeoutFailureInfo := timeoutInfo,
               canceledFailureInfo := canceledInfo, resetWorkflowFailureInfo := resetInfo }
      cause')

/-! ## Activation/completion serializer

The serializer mutates payload- and failure-bearing fields in place; here
each field walks from its decoded to its encoded state (or back) through the
same slot types.  The `Promise.all` batches are determinized as sequential
traversal in the source's listing order: the error reported for the whole
batch is the first failing field in that order. -/

/-- A failure-bearing slot of a decoded completion: the decoded error thrown
by workflow code, or (after serialization) its wire failure. -/
inductive ErrOrFail where
  | err (e : JsError) : ErrOrFail
  | fail (f : Failure) : ErrOrFail

/-- The value of a failure-bearing slot viewed as a throwable for
`errorToFailure` (a wire `Failure` record in error position is a plain
non-`Error` object). -/
def errOrFailThrowable : ErrOrFail → JsError
  | .err e => e
  | .fail f => .failureRec f

/-- The `failed` slot of a completion: the proto `{failure}` wrapper (as
built by the unhandled-rejection path) or the bare value that
`serializeCompletion`'s in-place `serializeFailure` writes over it. -/
inductive FailedSlot where
  | wrap (failure : Option ErrOrFail) : FailedSlot
  | flat (x : ErrOrFail) : FailedSlot

/-- A `failed` slot viewed as a throwable (`{failure}` wrapper records are
plain objects). -/
def failedSlotThrowable : FailedSlot → JsError
  | .flat x => errOrFailThrowable x
  | .wrap _ => .otherThrow (.obj [])

/-- JavaScript truthiness of a payload-position slot value. -/
def payValTruthy : PayVal → Bool
  | .pay _ => true
  | .val v => truthyJsVal v

/-- `serializeField`: skipped when the field is absent, otherwise the value
is replaced by its payload. -/
def serField (chain : List DataConverterWithEncoding) :
    Option PayVal → Except ConvErr (Option PayVal)
  | none => .ok none
  | some pv => do
    let p ← compositeToPayload chain (payValAsJsVal pv)
    .ok (some (.pay p))

/-- `serializeArray`: skipped when the field is falsy, otherwise each element
is replaced by its payload. -/
def serArray (chain : List DataConverterWithEncoding) :
    Option (List PayVal) → Except ConvErr (Option (List PayVal))
  | none => .ok none
  | some l => do
    let ps ← l.mapM (fun pv => compositeToPayload chain (payValAsJsVal pv))
    .ok (some (ps.map .pay))

/-- `serializeMap` (via `mapToPayloads`): each entry value is replaced by its
payload. -/
def serMap (chain : List DataConverterWithEncoding) :
    Option (List (String × PayVal)) → Except ConvErr (Option (List (String × PayVal)))
  | none => .ok none
  | some l => do
    let ps ← l.mapM (fun kv => do
      let p ← compositeToPayload chain (payValAsJsVal kv.2)
      pure (kv.1, PayVal.pay p))
    .ok (some ps)

/-- `serializeFailure` on a command field: skipped when falsy, otherwise the
error is replaced by `errorToFailure` of it. -/
def serErrField (chain : List DataConverterWithEncoding) :
    Option ErrOrFail → Except ConvErr (Option ErrOrFail)
  | none => .ok none
  | some x => do
    let f ← errorToFailure chain (errOrFailThrowable x)
    .ok (some (.fail f))

/-- `serializeFailure` on the completion's `failed` slot. -/
def serFailedSlot (chain : List DataConverterWithEncoding) :
    Option FailedSlot → Except ConvErr (Option FailedSlot)
  | none => .ok none
  | some s => do
    let f ← errorToFailure chain (failedSlotThrowable s)
    .ok (some (.flat (.fail f)))

/-- `scheduleActivity` command (its payload-bearing fields). -/
structure ScheduleActivityCmd where
  headerFields : Option (List (String × PayVal))
  arguments : Option (List PayVal)

/-- `respondToQuery.succeeded`. -/
structure QuerySucceeded where
  response : Option PayVal

/-- `respondToQuery` command. -/
structure RespondToQueryCmd where
  succeeded : Option QuerySucceeded
  failed : Option ErrOrFail

/-- `completeWorkflowExecution` command. -/
structure CompleteWFCmd where
  result : Option PayVal

/-- `failWorkflowExecution` command. -/
structure FailWFCmd where
  failure : Option ErrOrFail

/-- `continueAsNewWorkflowExecution` command. -/
structure ContinueAsNewCmd where
  arguments : Option (List PayVal)
  memo : Option (List (String × PayVal))
  header : Option (List (String × PayVal))
  searchAttributes : Option (List (String × PayVal))

/-- `startChildWorkflowExecution` command. -/
structure StartChildCmd where
  input : Option (List PayVal)
  memo : Option (List (String × PayVal))
  header : Option (List (String × PayVal))
  searchAttributes : Option (List (String × PayVal))

/-- `signalExternalWorkflowExecution` command. -/
structure SignalExternalCmd where
  args : Option (List PayVal)

/-- A workflow command: one of the closed set of command kinds, carrying
exactly the payload- and failure-bearing fields the serializer declares
(other command attributes pass through the serializer untouched and are
omitted; the command protos are not among the provided sources). -/
structure WFCommand where
  scheduleActivity : Option ScheduleActivityCmd
  respondToQuery : Option RespondToQueryCmd
  completeWorkflowExecution : Option CompleteWFCmd
  failWorkflowExecution : Option FailWFCmd
  continueAsNewWorkflowExecution : Option ContinueAsNewCmd
  startChildWorkflowExecution : Option StartChildCmd
  signalExternalWorkflowExecution : Option SignalExternalCmd

/-- A command with no kind set. -/
def emptyCommand : WFCommand :=
  { scheduleActivity := none, respondToQuery := none, completeWorkflowExecution := none,
    failWorkflowExecution := none, continueAsNewWorkflowExecution := none,
    startChildWorkflowExecution := none, signalExternalWorkflowExecution := none }

/-- `successful` part of a completion (commands may be `null` entries, which
the serializer passes through). -/
structure WFSuccess where
  commands : Option (List (Option WFCommand))

/-- A workflow activation completion. -/
structure WFCompletion where
  runId : Option String
  successful : Option WFSuccess
  failed : Option FailedSlot

/-- The `scheduleActivity` serializations (`serializeMap`/`serializeArray`
skip an absent parent object, per their `if (!obj) return` guard). -/
def serializeScheduleActivity (chain : List DataConverterWithEncoding) :
    Option ScheduleActivityCmd → Except ConvErr (Option ScheduleActivityCmd)
  | none => .ok none
  | some c => do
    let hf ← serMap chain c.headerFields
    let args ← serArray chain c.arguments
    .ok (some { c with headerFields := hf, arguments := args })

/-- `serializeField(command.respondToQuery?.succeeded, 'response')`. -/
def serializeQuerySucceeded (chain : List DataConverterWithEncoding) :
    Option QuerySucceeded → Except ConvErr (Option QuerySucceeded)
  | none => .ok none
  | some s => do
    let r ← serField chain s.response
    .ok (some { s with response := r })

/-- The `respondToQuery` serializations. -/
def serializeRespondToQuery (chain : List DataConverterWithEncoding) :
    Option RespondToQueryCmd → Except ConvErr (Option RespondToQueryCmd)
  | none => .ok none
  | some c => do
    let succ ← serializeQuerySucceeded chain c.succeeded
    let failed ← serErrField chain c.failed
    .ok (some { c with succeeded := succ, failed := failed })

/-- The `completeWorkflowExecution` serialization. -/
def serializeCompleteWF (chain : List DataConverterWithEncoding) :
    Option CompleteWFCmd → Except ConvErr (Option CompleteWFCmd)
  | none => .ok none
  | some c => do
    let r ← serField chain c.result
    .ok (some { c with result := r })

/-- The `failWorkflowExecution` serialization. -/
def serializeFailWF (chain : List DataConverterWithEncoding) :
    Option FailWFCmd → Except ConvErr (Option FailWFCmd)
  | none => .ok none
  | some c => do
    let f ← serErrField chain c.failure
    .ok (some { c with failure := f })

/-- The `continueAsNewWorkflowExecution` serializations. -/
def serializeContinueAsNew (chain : List DataConverterWithEncoding) :
    Option ContinueAsNewCmd → Except ConvErr (Option ContinueAsNewCmd)
  | none => .ok none
  | some c => do
    let args ← serArray chain c.arguments
    let memo ← serMap chain c.memo
    let header ← serMap chain c.header
    let sea ← serMap chain c.searchAttributes
    .ok (some { c with arguments := args, memo := memo, header := header,
                       searchAttributes := sea })

/-- The `startChildWorkflowExecution` serializations. -/
def serializeStartChild (chain : List DataConverterWithEncoding) :
    Option StartChildCmd → Except ConvErr (Option StartChildCmd)
  | none => .ok none
  | some c => do
    let input ← serArray chain c.input
    let memo ← serMap chain c.memo
    let header ← serMap chain c.header
    let sea ← serMap chain c.searchAttributes
    .ok (some { c with input := input, memo := memo, header := header,
                       searchAttributes := sea })

/-- The `signalExternalWorkflowExecution` serialization. -/
def serializeSignalExternal (chain : List DataConverterWithEncoding) :
    Option SignalExternalCmd → Except ConvErr (Option SignalExternalCmd)
  | none => .ok none
  | some c => do
    let args ← serArray chain c.args
    .ok (some { c with args := args })

/-- The field serializations of one command, in the order of the source's
`flatMap` listing. -/
def serializeCommand (chain : List DataConverterWithEncoding) (cmd : WFCommand) :
    Except ConvErr WFCommand := do
  let sa ← serializeScheduleActivity chain cmd.scheduleActivity
  let rq ← serializeRespondToQuery chain cmd.respondToQuery
  let cw ← serializeCompleteWF chain cmd.completeWorkflowExecution
  let fw ← serializeFailWF chain cmd.failWorkflowExecution
  let can ← serializeContinueAsNew chain cmd.continueAsNewWorkflowExecution
  let sc ← serializeStartChild chain cmd.startChildWorkflowExecution
  let se ← serializeSignalExternal chain cmd.signalExternalWorkflowExecution
  .ok { scheduleActivity := sa, respondToQuery := rq, completeWorkflowExecution := cw,
        failWorkflowExecution := fw, continueAsNewWorkflowExecution := can,
        startChildWorkflowExecution := sc, signalExternalWorkflowExecution := se }

/-- `null` commands are passed through unserialized. -/
def serializeCommandOpt (chain : List DataConverterWithEncoding) :
    Option WFCommand → Except ConvErr (Option WFCommand)
  | none => .ok none
  | some c => do
    let c' ← serializeCommand chain c
    .ok (some c')

/-- The command-list serialization (`completion.successful?.commands?` with
`null` commands passed through). -/
def serializeSuccess (chain : List DataConverterWithEncoding) :
    Option WFSuccess → Except ConvErr (Option WFSuccess)
  | none => .ok none
  | some ⟨none⟩ => .ok (some ⟨none⟩)
  | some ⟨some cmds⟩ => do
    let cmds' ← cmds.mapM (serializeCommandOpt chain)
    .ok (some ⟨some cmds'⟩)

/-- `WorkflowIOSerializer.serializeCompletion`: encode every declared
payload- and failure-bearing field of every command, and the completion's
`failed` slot; the first failing field fails the whole serialization and no
completion record is produced. -/
def serializeCompletion (chain : List DataConverterWithEncoding)
    (completion : WFCompletion) : Except ConvErr WFCompletion := do
  let succ ← serializeSuccess chain completion.successful
  let failed ← serFailedSlot chain completion.failed
  .ok { completion with successful := succ, failed := failed }

/-! ## Activation deserialization and the VM workflow scheduler -/

/-- `startWorkflow` job (payload-bearing fields). -/
structure StartWorkflowJob where
  arguments : Option (List PayVal)
  headers : Option (List (String × PayVal))

/-- `queryWorkflow` job. -/
structure QueryWorkflowJob where
  queryType : Option String
  arguments : Option (List PayVal)

/-- `cancelWorkflow` job. -/
structure CancelWorkflowJob where
  details : Option (List PayVal)

/-- `signalWorkflow` job. -/
structure SignalWorkflowJob where
  signalName : Option String
  input : Option (List PayVal)

/-- `notifyHasPatch` job. -/
structure NotifyHasPatchJob where
  patchId : Option String

/-- A record holding a `failure` field (the serializer's failure parents). -/
structure FailureHolder where
  failure : Option Failure

/-- A `completed` result holding a `result` payload. -/
structure ResultCompleted where
  result : Option PayVal

/-- The result of a resolved activity or child workflow. -/
structure ActivityResult where
  completed : Option ResultCompleted
  failed : Option FailureHolder
  cancelled : Option FailureHolder

/-- `resolveActivity` job. -/
structure ResolveActivityJob where
  result : Option ActivityResult

/-- `resolveChildWorkflowExecution` job. -/
structure ResolveChildWFJob where
  result : Option ActivityResult

/-- `resolveChildWorkflowExecutionStart` job. -/
structure ResolveChildWFStartJob where
  cancelled : Option FailureHolder

/-- An activation job: one of the closed set of job kinds, carrying the
fields the serializer declares. -/
structure WFJob where
  notifyHasPatch : Option NotifyHasPatchJob
  signalWorkflow : Option SignalWorkflowJob
  queryWorkflow : Option QueryWorkflowJob
  startWorkflow : Option StartWorkflowJob
  cancelWorkflow : Option CancelWorkflowJob
  resolveActivity : Option ResolveActivityJob
  resolveChildWorkflowExecution : Option ResolveChildWFJob
  resolveChildWorkflowExecutionStart : Option ResolveChildWFStartJob
  resolveSignalExternalWorkflow : Option FailureHolder
  resolveRequestCancelExternalWorkflow : Option FailureHolder

/-- A job with no kind set. -/
def emptyJob : WFJob :=
  { notifyHasPatch := none, signalWorkflow := none, queryWorkflow := none,
    startWorkflow := none, cancelWorkflow := none, resolveActivity := none,
    resolveChildWorkflowExecution := none, resolveChildWorkflowExecutionStart := none,
    resolveSignalExternalWorkflow := none, resolveRequestCancelExternalWorkflow := none }

/-- A workflow activation: run id, replay flag and job list. -/
structure WFActivation where
  runId : Option String
  isReplaying : Option Bool
  jobs : Option (List WFJob)

/-- `deserializeField`: skipped when the field is absent or falsy, otherwise
the payload is replaced by its decoded value. -/
def deField (chain : List DataConverterWithEncoding) :
    Option PayVal → Except ConvErr (Option PayVal)
  | none => .ok none
  | some pv =>
    if payValTruthy pv then do
      let v ← compositeFromPayload chain (payValAsPayload pv)
      .ok (some (.val v))
    else .ok (some pv)

/-- `deserializeArray`. -/
def deArray (chain : List DataConverterWithEncoding) :
    Option (List PayVal) → Except ConvErr (Option (List PayVal))
  | none => .ok none
  | some l => do
    let vs ← l.mapM (fun pv => compositeFromPayload chain (payValAsPayload pv))
    .ok (some (vs.map .val))

/-- `deserializeMap`. -/
def deMap (chain : List DataConverterWithEncoding) :
    Option (List (String × PayVal)) → Except ConvErr (Option (List (String × PayVal)))
  | none => .ok none
  | some l => do
    let vs ← l.mapM (fun kv => do
      let v ← compositeFromPayload chain (payValAsPayload kv.2)
      pure (kv.1, PayVal.val v))
    .ok (some vs)

/-- `WorkflowIOSerializer.deserializeFailure`: skipped without a failure
parent or a `failure` value, otherwise the wire failure is replaced by its
deserialized form. -/
def deFailureHolder (chain : List DataConverterWithEncoding) :
    Option FailureHolder → Except ConvErr (Option FailureHolder)
  | none => .ok none
  | some h =>
    match h.failure with
    | none => .ok (some h)
    | some f => do
      let f' ← deserializeFailure chain f
      .ok (some ⟨some f'⟩)

/-- The per-job field deserializations of `deserializeActivation`, in the
order of the source's `flatMap` listing. -/
def deserializeJob (chain : List DataConverterWithEncoding) (job : WFJob) :
    Except ConvErr WFJob := do
  let sw ←
    match job.startWorkflow with
    | none => pure none
    | some s => do
      let args ← deArray chain s.arguments
      let headers ← deMap chain s.headers
      pure (some { s with arguments := args, headers := headers })
  let qw ←
    match job.queryWorkflow with
    | none => pure none
    | some q => do
      let args ← deArray chain q.arguments
      pure (some { q with arguments := args })
  let cw ←
    match job.cancelWorkflow with
    | none => pure none
    | some c => do
      let details ← deArray chain c.details
      pure (some { c with details := details })
  let sig ←
    match job.signalWorkflow with
    | none => pure none
    | some s => do
      let input ← deArray chain s.input
      pure (some { s with input := input })
  let ra ←
    match job.resolveActivity with
    | none => pure none
    | some r =>
      match r.result with
      | none => pure (some r)
      | some res => do
        let completed ←
          match res.completed with
          | none => pure none
          | some c => do
            let v ← deField chain c.result
            pure (some { c with result := v })
        let failed ← deFailureHolder chain res.failed
        let cancelled ← deFailureHolder chain res.cancelled
        let res' := { res with completed := completed, failed := failed, cancelled := cancelled }
        pure (some { r with result := some res' })
  let rc ←
    match job.resolveChildWorkflowExecution with
    | none => pure none
    | some r =>
      match r.result with
      | none => pure (some r)
      | some res => do
        let completed ←
          match res.completed with
          | none => pure none
          | some c => do
            let v ← deField chain c.result
            pure (some { c with result := v })
        let failed ← deFailureHolder chain res.failed
        let cancelled ← deFailureHolder chain res.cancelled
        let res' := { res with completed := completed, failed := failed, cancelled := cancelled }
        pure (some { r with result := some res' })
  let rcs ←
    match job.resolveChildWorkflowExecutionStart with
    | none => pure none
    | some r => do
      let cancelled ← deFailureHolder chain r.cancelled
      pure (some { r with cancelled := cancelled })
  let rse ← deFailureHolder chain job.resolveSignalExternalWorkflow
  let rrc ← deFailureHolder chain job.resolveRequestCancelExternalWorkflow
  .ok { job with startWorkflow := sw, queryWorkflow := qw, cancelWorkflow := cw,
                 signalWorkflow := sig, resolveActivity := ra,
                 resolveChildWorkflowExecution := rc,
                 resolveChildWorkflowExecutionStart := rcs,
                 resolveSignalExternalWorkflow := rse,
                 resolveRequestCancelExternalWorkflow := rrc }

/-- `WorkflowIOSerializer.deserializeActivation`: decode every payload field
and every nested failure of every job; the first failing field fails the
whole activation. -/
def deserializeActivation (chain : List DataConverterWithEncoding)
    (activation : WFActivation) : Except ConvErr WFActivation := do
  match activation.jobs with
  | none => .ok activation
  | some jobs => do
    let jobs' ← jobs.mapM (deserializeJob chain)
    .ok { activation with jobs := some jobs' }

/-- Modelled from the spec: the sandbox's worker interface (the
`@temporalio/workflow` internals are not among the provided sources).  The
state type is abstract; `activate` applies one job sub-batch and reports the
number of blocked conditions, `tryUnblockConditions` stands for the drained
condition-re-evaluation fixpoint, and `concludeActivation` assembles the
accumulated command buffer into a completion. -/
structure WorkflowModule (St : Type) where
  activate : WFActivation → Nat → St → Except ConvErr (St × Nat)
  tryUnblockConditions : St → St
  concludeActivation : St → WFCompletion

/-- The four job sub-batches computed by `VMWorkflow.activate`: patches,
signals, everything else, queries.  The worker's `partition` helper
(`src/worker/utils.ts` is not among the provided sources) is modelled from
the spec as the order-preserving partition, i.e. `List.partition`. -/
def activationBatches (jobs : List WFJob) : List (List WFJob) :=
  let p1 := jobs.partition (fun j => j.notifyHasPatch.isSome)
  let patches := p1.1
  let p2 := p1.2.partition (fun j => j.signalWorkflow.isSome)
  let signals := p2.1
  let p3 := p2.2.partition (fun j => j.queryWorkflow.isSome)
  let queries := p3.1
  let rest := p3.2
  [patches, signals, rest, queries]

/-- The batch loop of `VMWorkflow.activate`: empty sub-batches are skipped;
each non-empty sub-batch is deserialized and applied with the running batch
index, and blocked conditions are drained before advancing. -/
def runBatches {St : Type} (chain : List DataConverterWithEncoding)
    (module : WorkflowModule St) (activation : WFActivation) :
    List (List WFJob) → Nat → St → Except ConvErr St
  | [], _, st => .ok st
  | batch :: restBatches, batchIndex, st =>
    if batch.isEmpty then runBatches chain module activation restBatches batchIndex st
    else do
      let activationMessage : WFActivation := { activation with jobs := some batch }
      let de ← deserializeActivation chain activationMessage
      let (st', numBlockedConditions) ← module.activate de batchIndex st
      let st'' := if numBlockedConditions > 0 then module.tryUnblockConditions st' else st'
      runBatches chain module activation restBatches (batchIndex + 1) st''

/-- `WFActivationCompletion.encodeDelimited(...).finish()`, abstractly. -/
inductive EncodedCompletion where
  | delimited (c : WFCompletion) : EncodedCompletion

/-- `VMWorkflow.activate`: requires an initialized context and a defined job
list; partitions the jobs into the four sub-batches and runs them in order;
then concludes the activation and — when the unhandled-rejection slot holds a
truthy defect at the final check — discards the sandbox's completion and
returns a single failed completion carrying that defect, otherwise serializes
and returns the sandbox's completion.  `finalUnhandledRejection` is the value
of the `unhandledRejection` slot (written by `setUnhandledRejection`) at that
check. -/
def vmActivate {St : Type} (chain : List DataConverterWithEncoding)
    (module : WorkflowModule St) (context : Option Unit) (st0 : St)
    (activation : WFActivation) (finalUnhandledRejection : Option JsError) :
    Except ConvErr EncodedCompletion :=
  match context with
  | none => .error (.illegalStateError "Workflow isolate context uninitialized")
  | some _ =>
    match activation.jobs with
    | none => .error (.jsError "Expected workflow activation jobs to be defined")
    | some jobs => do
      let st ← runBatches chain module activation (activationBatches jobs) 0 st0
      let completion := module.concludeActivation st
      match finalUnhandledRejection with
      | some err =>
        if truthyJsError err then do
          let failure ← errorToFailure chain err
          .ok (.delimited { runId := activation.runId, successful := none,
                            failed := some (.wrap (some (.fail failure))) })
        else do
          let serializedCompletion ← serializeCompletion chain completion
          .ok (.delimited serializedCompletion)
      | none => do
        let serializedCompletion ← serializeCompletion chain completion
        .ok (.delimited serializedCompletion)

/-! ## Cancellation (`cancel` of the workflow library) -/

/-- An error thrown inside the workflow context: a plain programming `Error`,
a `CancellationError`, or a domain failure of the typed taxonomy. -/
inductive WfError where
  | plainError (msg : String) : WfError
  | cancellationError (reason : String) : WfError
  | domainFailure (e : JsError) : WfError

/-- The per-promise bookkeeping the runtime registers: the owning scope
(abstract) and whether cancellation is allowed by policy. -/
structure PromiseData (S : Type) where
  scope : S
  cancellable : Bool

/-- The runtime half the workflow global state exposes to `cancel`:
`getPromiseData` over promise identifiers. -/
structure RuntimeModel (S : Type) where
  promiseData : List (Nat × PromiseData S)

/-- `state.runtime.getPromiseData(promise)`. -/
def getPromiseData {S : Type} (r : RuntimeModel S) (promise : Nat) :
    Option (PromiseData S) :=
  (r.promiseData.find? (fun kv => kv.1 = promise)).map (fun kv => kv.2)

/-- The workflow global `state`, restricted to what `cancel` reads. -/
structure WfState (S : Type) where
  runtime : Option (RuntimeModel S)

/-- `cancel(promise, reason)`: no runtime or no registered scope data or a
non-cancellable registration throw plain `Error`s; otherwise the scope's
`requestCancel` (scope internals are not part of the embedded sources and are
abstracted as the `requestCancel` argument) is invoked with a
`CancellationError`, whose own `CancellationError` propagation is swallowed
while other errors rethrow. -/
def cancel {S : Type} (requestCancel : S → WfError → Except WfError Unit)
    (st : WfState S) (promise : Nat) (reason : String) : Except WfError Unit :=
  match st.runtime with
  | none => .error (.plainError "Uninitialized workflow")
  | some runtime =>
    match getPromiseData runtime promise with
    | none => .error (.plainError "Expected to find promise scope, got undefined")
    | some data =>
      if !data.cancellable then .error (.plainError "Promise is not cancellable")
      else
        match requestCancel data.scope (.cancellationError reason) with
        | .ok _ => .ok ()
        | .error (.cancellationError _) => .ok ()
        | .error e => .error e

/-! ## Auxiliary predicates and companions for the statements -/

mutual

/-- The JSON-serializable fragment of the value universe: `null`, booleans,
numbers, strings, and arrays/objects thereof (no `undefined`, buffers or
protobuf messages anywhere), i.e. the values on which the built-in
`JSON.parse ∘ JSON.stringify` is the identity. -/
def isJsonSerializable : JsVal → Bool
  | .undefV => false
  | .nullv => true
  | .boolv _ => true
  | .num _ => true
  | .strv _ => true
  | .arr xs => isJsonList xs
  | .obj fs => isJsonFields fs
  | .buffer _ => false
  | .proto _ _ => false

/-- All elements JSON-serializable. -/
def isJsonList : List JsVal → Bool
  | [] => true
  | x :: xs => isJsonSerializable x && isJsonList xs

/-- All field values JSON-serializable. -/
def isJsonFields : List (String × JsVal) → Bool
  | [] => true
  | kv :: fs => isJsonSerializable kv.2 && isJsonFields fs

end

/-- The error of a failed `Except`, if any. -/
def errOpt {α : Type} : Except ConvErr α → Option ConvErr
  | .ok _ => none
  | .error e => some e

/-- The error of a failed `Except` as a (zero- or one-element) list. -/
def errOf {α : Type} : Except ConvErr α → List ConvErr
  | .ok _ => []
  | .error e => [e]

/-- The errors of the individual field serializations of one command, in the
order of `serializeCompletion`'s `flatMap` listing.  This walks each
payload- and failure-bearing field independently of the others, so it
records which fields fail regardless of how the in-place serialization
threads them. -/
def commandFieldErrors (chain : List DataConverterWithEncoding) (cmd : WFCommand) :
    List ConvErr :=
  (match cmd.scheduleActivity with
   | none => []
   | some c => errOf (serMap chain c.headerFields) ++ errOf (serArray chain c.arguments)) ++
  ((match cmd.respondToQuery with
    | none => []
    | some c =>
      (match c.succeeded with
       | none => []
       | some s => errOf (serField chain s.response)) ++ errOf (serErrField chain c.failed)) ++
  ((match cmd.completeWorkflowExecution with
    | none => []
    | some c => errOf (serField chain c.result)) ++
  ((match cmd.failWorkflowExecution with
    | none => []
    | some c => errOf (serErrField chain c.failure)) ++
  ((match cmd.continueAsNewWorkflowExecution with
    | none => []
    | some c => errOf (serArray chain c.arguments) ++ (errOf (serMap chain c.memo) ++
        (errOf (serMap chain c.header) ++ errOf (serMap chain c.searchAttributes)))) ++
  ((match cmd.startChildWorkflowExecution with
    | none => []
    | some c => errOf (serArray chain c.input) ++ (errOf (serMap chain c.memo) ++
        (errOf (serMap chain c.header) ++ errOf (serMap chain c.searchAttributes)))) ++
  (match cmd.signalExternalWorkflowExecution with
   | none => []
   | some c => errOf (serArray chain c.args)))))))

/-- The field errors of one (possibly `null`) command list entry. -/
def commandOptFieldErrors (chain : List DataConverterWithEncoding) :
    Option WFCommand → List ConvErr
  | none => []
  | some cmd => commandFieldErrors chain cmd

/-- The errors of every field serialization of a completion, in traversal
order: each command's fields, then the completion's `failed` slot. -/
def completionFieldErrors (chain : List DataConverterWithEncoding)
    (completion : WFCompletion) : List ConvErr :=
  (match completion.successful with
   | none => []
   | some s =>
     match s.commands with
     | none => []
     | some cmds => (cmds.map (commandOptFieldErrors chain)).flatten) ++
  errOf (serFailedSlot chain completion.failed)

/-- The jobs of an activation in the order `VMWorkflow.activate` feeds them
to the sandbox: the concatenation of the four sub-batches. -/
def processedJobs (jobs : List WFJob) : List WFJob :=
  (activationBatches jobs).flatten

/-- The scheduler's rank of a job: patches before signals before everything
else before queries, classified exactly as the partition predicates do. -/
def jobRank (j : WFJob) : Nat :=
  if j.notifyHasPatch.isSome then 0
  else if j.signalWorkflow.isSome then 1
  else if j.queryWorkflow.isSome then 3
  else 2

/-- The info variant of a taxonomy error, if it is one. -/
def JsError.infoVariant : JsError → Option TVariant
  | .temporal _ _ _ _ i => some i
  | _ => none

/-- A concrete `ChildWorkflowFailure` as thrown by framework code: namespace,
execution reference, workflow type and retry state, with no cause. -/
def childWorkflowFailureInput : JsError :=
  mkChildWorkflowFailure (some "ns") ⟨some "wid", some "rid"⟩ "TestWorkflow" 1 none

/-- Whether a codec accepts a value (its `toPayload` does not throw). -/
def acceptsValue (c : DataConverterWithEncoding) (v : JsVal) : Bool :=
  match c.toPayload v with
  | .ok _ => true
  | .error _ => false

/-! ## Theorems -/

/-- Reduction of `Except` bind on a success. -/
theorem exc_bind_ok {α β : Type} (a : α) (f : α → Except ConvErr β) :
    (Except.ok a >>= f) = f a := rfl

/-- Reduction of `Except` bind on an error. -/
theorem exc_bind_error {α β : Type} (e : ConvErr) (f : α → Except ConvErr β) :
    ((Except.error e : Except ConvErr α) >>= f) = .error e := rfl

/-- C2: evaluating the cited round trip (`errorToFailure` of the common
failure module composed with the worker `failureToError`) at a concrete
`ChildWorkflowFailure` shows the bug: `errorToFailure` does record the
child-workflow info variant on the wire failure, but `failureToErrorInner`
has no branch for it, so the round trip yields the base `TemporalFailure`
instead of a `ChildWorkflowFailure` — the variant and its
namespace/execution/workflow-type/retry-state fields are lost, contradicting
the claimed same-variant, field-preserving round trip for all 7 variants. -/
theorem childWorkflow_roundtrip_loses_variant :
    childWorkflowFailureInput.errName = "ChildWorkflowFailure" ∧
    ((errorToFailure (defaultConverters none) childWorkflowFailureInput).map
      (fun f => f.base.childWorkflowExecutionFailureInfo.isSome)) = .ok true ∧
    (((errorToFailure (defaultConverters none) childWorkflowFailureInput).bind
      (failureToError (defaultConverters none))).map
      (fun e => (e.errName, e.infoVariant))) = .ok ("TemporalFailure", some .base) := by
  refine ⟨rfl, rfl, ?_⟩
  simp [childWorkflowFailureInput, mkChildWorkflowFailure, errorToFailure,
    optionalErrorToOptionalFailure, failureToError, failureToErrorInner,
    optionalFailureToOptionalError, failureCommon, withStackAndFailure, mkTemporalFailure,
    exc_bind_ok, exc_bind_error, Except.bind, Except.map, Failure.base, emptyBase,
    JsError.errName, JsError.infoVariant]

/-- C9: `cancel` throws plain programming `Error`s — never a
`CancellationError` or a domain failure of the typed taxonomy — when the
workflow is uninitialized, when no scope data is registered for the promise,
and when the registered data is not cancellable, whatever the scope's own
`requestCancel` behaviour is. -/
theorem cancel_programming_errors {S : Type}
    (requestCancel : S → WfError → Except WfError Unit) (st : WfState S)
    (promise : Nat) (reason : String) :
    (st.runtime = none →
      cancel requestCancel st promise reason = .error (.plainError "Uninitialized workflow")) ∧
    (∀ rt, st.runtime = some rt → getPromiseData rt promise = none →
      cancel requestCancel st promise reason =
        .error (.plainError "Expected to find promise scope, got undefined")) ∧
    (∀ rt data, st.runtime = some rt → getPromiseData rt promise = some data →
      data.cancellable = false →
      cancel requestCancel st promise reason =
        .error (.plainError "Promise is not cancellable")) := by
  refine ⟨fun h => ?_, fun rt hrt hdata => ?_, fun rt data hrt hdata hcan => ?_⟩
  · simp [cancel, h]
  · simp [cancel, hrt, hdata]
  · simp [cancel, hrt, hdata, hcan]

/-- Witness for C9 at a concrete state: promise 1 has no registered data,
promise 0 is registered non-cancellable. -/
theorem cancel_programming_errors_witness :
    cancel (fun (_ : Unit) _ => .ok ()) ⟨some ⟨[(0, ⟨(), false⟩)]⟩⟩ 1 "Cancelled" =
      .error (.plainError "Expected to find promise scope, got undefined") ∧
    cancel (fun (_ : Unit) _ => .ok ()) ⟨some ⟨[(0, ⟨(), false⟩)]⟩⟩ 0 "Cancelled" =
      .error (.plainError "Promise is not cancellable") :=
  ⟨(cancel_programming_errors _ _ 1 "Cancelled").2.1 _ rfl rfl,
   (cancel_programming_errors _ _ 0 "Cancelled").2.2 _ _ rfl rfl rfl⟩

/-- C10: `fromPayloads` returns `undefined` without error on an absent
payload list or an out-of-range index, and decodes the indexed payload only
when the index is in range. -/
theorem fromPayloads_absent_or_out_of_range (chain : List DataConverterWithEncoding)
    (index : Nat) (payloads : Option (List Payload)) :
    (payloads = none → compositeFromPayloads chain index payloads = .ok .undefV) ∧
    (∀ ps, payloads = some ps → ps.length ≤ index →
      compositeFromPayloads chain index payloads = .ok .undefV) ∧
    (∀ ps, payloads = some ps → ∀ h : index < ps.length,
      compositeFromPayloads chain index payloads =
        compositeFromPayload chain (ps.get ⟨index, h⟩)) := by
  refine ⟨fun h => ?_, fun ps hps hlen => ?_, fun ps hps h => ?_⟩
  · simp [compositeFromPayloads, h]
  · subst hps
    simp [compositeFromPayloads]
    omega
  · subst hps
    simp [compositeFromPayloads, h]

/-- Witness for C10: absent list, index 0 past an empty list, and index 0
into a one-payload list. -/
theorem fromPayloads_absent_or_out_of_range_witness :
    compositeFromPayloads (defaultConverters none) 3 none = .ok .undefV ∧
    compositeFromPayloads (defaultConverters none) 0 (some []) = .ok .undefV ∧
    compositeFromPayloads (defaultConverters none) 0 (some [⟨none, none⟩]) =
      compositeFromPayload (defaultConverters none) ⟨none, none⟩ :=
  ⟨(fromPayloads_absent_or_out_of_range _ 3 none).1 rfl,
   (fromPayloads_absent_or_out_of_range _ 0 (some [])).2.1 [] rfl (by decide),
   (fromPayloads_absent_or_out_of_range _ 0 (some [⟨none, none⟩])).2.2 [⟨none, none⟩] rfl
     (by decide)⟩

/-- C8: with data and a declared message type present, the protobuf
converters fail with a `DataConverterError` — the converter-misconfigured
error — both when no type registry (`root`) was supplied and when the
declared type is absent from the registry; malformed payload data (no data
bytes) instead fails with a `ValueError`, a different error class. -/
theorem proto_fromPayload_distinguishes_misconfiguration
    (root : Option ProtoRoot) (p : Payload) (d : Bytes) (m : List (String × Bytes))
    (name : String) (hd : p.data = some d) (hm : p.metadata = some m)
    (hname : metaGet m METADATA_MESSAGE_TYPE_KEY = some (.utf8 name)) :
    (root = none →
      fromPayload (.ProtobufBinaryDataConverter root) p =
        .error (.dataConverterError
          "Unable to deserialize protobuf message without `root` being provided") ∧
      fromPayload (.ProtobufJsonDataConverter root) p =
        .error (.dataConverterError
          "Unable to deserialize protobuf message without `root` being provided")) ∧
    (∀ reg, root = some reg → name ∉ reg →
      fromPayload (.ProtobufBinaryDataConverter root) p =
        .error (.dataConverterError ("Got a `" ++ name ++
          "` protobuf message but cannot find corresponding message class in `root`")) ∧
      fromPayload (.ProtobufJsonDataConverter root) p =
        .error (.dataConverterError ("Got a `" ++ name ++
          "` protobuf message but cannot find corresponding message class in `root`"))) ∧
    (∀ q : Payload, q.data = none →
      fromPayload (.ProtobufBinaryDataConverter root) q =
        .error (.valueError "Got payload with no data") ∧
      fromPayload (.ProtobufJsonDataConverter root) q =
        .error (.valueError "Got payload with no data")) := by
  refine ⟨fun hroot => ?_, fun reg hroot hmem => ?_, fun q hq => ?_⟩
  · subst hroot
    constructor <;>
      simp [DataConverterWithEncoding.fromPayload, validatePayload, hd, hm, hname,
        exc_bind_ok, exc_bind_error, Except.bind]
  · subst hroot
    constructor <;>
      simp [DataConverterWithEncoding.fromPayload, validatePayload, hd, hm, hname, hmem,
        strOf, exc_bind_ok, exc_bind_error, Except.bind]
  · constructor <;>
      simp [DataConverterWithEncoding.fromPayload, validatePayload, hq,
        exc_bind_ok, exc_bind_error, Except.bind]

/-- Witness for C8 at a concrete protobuf payload: no registry, a registry
missing the type, and a payload without data. -/
theorem proto_fromPayload_distinguishes_misconfiguration_witness :
    (fromPayload (.ProtobufBinaryDataConverter none)
        ⟨some [(METADATA_MESSAGE_TYPE_KEY, .utf8 "Foo")], some (.protoBin "Foo" .nullv)⟩ =
      .error (.dataConverterError
        "Unable to deserialize protobuf message without `root` being provided")) ∧
    (fromPayload (.ProtobufBinaryDataConverter (some ["Bar"]))
        ⟨some [(METADATA_MESSAGE_TYPE_KEY, .utf8 "Foo")], some (.protoBin "Foo" .nullv)⟩ =
      .error (.dataConverterError
        ("Got a `" ++ "Foo" ++
         "` protobuf message but cannot find corresponding message class in `root`"))) ∧
    (fromPayload (.ProtobufBinaryDataConverter none)
        ⟨some [(METADATA_MESSAGE_TYPE_KEY, .utf8 "Foo")], none⟩ =
      .error (.valueError "Got payload with no data")) :=
  ⟨((proto_fromPayload_distinguishes_misconfiguration none
      ⟨some [(METADATA_MESSAGE_TYPE_KEY, .utf8 "Foo")], some (.protoBin "Foo" .nullv)⟩
      (.protoBin "Foo" .nullv) [(METADATA_MESSAGE_TYPE_KEY, .utf8 "Foo")] "Foo"
      rfl rfl rfl).1 rfl).1,
   ((proto_fromPayload_distinguishes_misconfiguration (some ["Bar"])
      ⟨some [(METADATA_MESSAGE_TYPE_KEY, .utf8 "Foo")], some (.protoBin "Foo" .nullv)⟩
      (.protoBin "Foo" .nullv) [(METADATA_MESSAGE_TYPE_KEY, .utf8 "Foo")] "Foo"
      rfl rfl rfl).2.1 ["Bar"] rfl (by decide)).1,
   ((proto_fromPayload_distinguishes_misconfiguration none
      ⟨some [(METADATA_MESSAGE_TYPE_KEY, .utf8 "Foo")], some (.protoBin "Foo" .nullv)⟩
      (.protoBin "Foo" .nullv) [(METADATA_MESSAGE_TYPE_KEY, .utf8 "Foo")] "Foo"
      rfl rfl rfl).2.2 ⟨some [(METADATA_MESSAGE_TYPE_KEY, .utf8 "Foo")], none⟩ rfl).1⟩

/-- Every codec declines a value only with `UnsupportedTypeError`; in this
value universe no codec's `toPayload` throws anything else. -/
theorem toPayload_declines_with_unsupported (c : DataConverterWithEncoding) (v : JsVal)
    (e : ConvErr) (h : c.toPayload v = .error e) : e = .unsupportedType := by
  cases c <;> cases v <;> simp_all [DataConverterWithEncoding.toPayload]

/-- C5: the composite `toPayload` tries the codecs in their declared order
and returns the payload of the first codec that accepts the value; when no
codec in the chain accepts it, the result is the `ValueError`
`Cannot serialize ...`. -/
theorem compositeToPayload_first_accepting (chain : List DataConverterWithEncoding)
    (v : JsVal) :
    compositeToPayload chain v =
      match chain.find? (fun c => acceptsValue c v) with
      | some c => c.toPayload v
      | none => .error (.valueError ("Cannot serialize " ++ displayJsVal v)) := by
  induction chain with
  | nil => rfl
  | cons c rest ih =>
    cases h : c.toPayload v with
    | ok p => simp [compositeToPayload, List.find?, acceptsValue, h]
    | error e =>
      have he := toPayload_declines_with_unsupported c v e h
      subst he
      simp [compositeToPayload, List.find?, acceptsValue, h, ih]

/-- C3: over the default chain, for every value of a kind with well-defined
equality — `undefined`, a binary buffer, or a JSON-serializable structure —
decoding the payload produced by encoding the value returns the value:
`fromPayload (toPayload v) = v`. -/
theorem defaultConverters_roundtrip (root : Option ProtoRoot) (v : JsVal)
    (h : v = .undefV ∨ (∃ b, v = .buffer b) ∨ isJsonSerializable v = true) :
    ∃ p, compositeToPayload (defaultConverters root) v = .ok p ∧
      compositeFromPayload (defaultConverters root) p = .ok v := by
  rcases h with h | ⟨b, h⟩ | h
  · subst h
    exact ⟨_, rfl, rfl⟩
  · subst h
    exact ⟨_, rfl, rfl⟩
  · cases v with
    | undefV => simp [isJsonSerializable] at h
    | buffer b => simp [isJsonSerializable] at h
    | proto n b => simp [isJsonSerializable] at h
    | nullv => exact ⟨_, rfl, rfl⟩
    | boolv b => exact ⟨_, rfl, rfl⟩
    | num n => exact ⟨_, rfl, rfl⟩
    | strv s => exact ⟨_, rfl, rfl⟩
    | arr xs => exact ⟨_, rfl, rfl⟩
    | obj fs => exact ⟨_, rfl, rfl⟩

/-- Witness for C3 at the spec's scenario value `[1, "two"]` (and at
`undefined` and a raw buffer through the same theorem's other kinds). -/
theorem defaultConverters_roundtrip_witness :
    ∃ p, compositeToPayload (defaultConverters none) (.arr [.num 1, .strv "two"]) = .ok p ∧
      compositeFromPayload (defaultConverters none) p = .ok (.arr [.num 1, .strv "two"]) :=
  defaultConverters_roundtrip none (.arr [.num 1, .strv "two"])
    (Or.inr (Or.inr (by decide)))

/-- `Map.set` then `Map.get` of the same key yields the set value. -/
theorem mapGet_mapSet_self (m : List (String × DataConverterWithEncoding)) (k : String)
    (c : DataConverterWithEncoding) : mapGet (mapSet m k c) k = some c := by
  induction m with
  | nil => simp [mapSet, mapGet, List.find?]
  | cons a m ih =>
    by_cases ha : a.1 = k
    · simp [mapSet, mapGet, List.any_cons, ha, List.find?]
    · by_cases hm : m.any (fun kv => kv.1 = k)
      · simp [mapSet, mapGet, List.any_cons, ha, hm, List.find?] at ih ⊢
        exact ih
      · simp [mapSet, mapGet, List.any_cons, ha, hm, List.find?] at ih ⊢
        exact ih

/-- Replacing entries of an unrelated key does not change a lookup. -/
theorem find?_map_replaceKey (m : List (String × DataConverterWithEncoding))
    (j : String) (c : DataConverterWithEncoding) (k : String) (h : j ≠ k) :
    ((m.map (fun kv => if kv.1 = j then (j, c) else kv)).find? (fun kv => kv.1 = k)) =
      m.find? (fun kv => kv.1 = k) := by
  induction m with
  | nil => rfl
  | cons a m ih =>
    have hkj : ¬(k = j) := fun hh => h hh.symm
    by_cases ha : a.1 = j
    · simp [List.find?, ha, h, hkj, ih]
    · by_cases hak : a.1 = k
      · simp [List.find?, ha, hak, hkj]
      · simp [List.find?, ha, hak, ih]

/-- Appending an entry of an unrelated key does not change a lookup. -/
theorem find?_append_nonmatching (m : List (String × DataConverterWithEncoding))
    (j : String) (c : DataConverterWithEncoding) (k : String) (h : j ≠ k) :
    ((m ++ [(j, c)]).find? (fun kv => kv.1 = k)) = m.find? (fun kv => kv.1 = k) := by
  induction m with
  | nil => simp [List.find?, h]
  | cons a m ih =>
    by_cases hak : a.1 = k
    · simp [List.find?, hak]
    · simp [List.find?, hak, ih]

/-- `Map.set` of one key leaves lookups of other keys unchanged. -/
theorem mapGet_mapSet_other (m : List (String × DataConverterWithEncoding))
    (j : String) (c : DataConverterWithEncoding) (k : String) (h : j ≠ k) :
    mapGet (mapSet m j c) k = mapGet m k := by
  unfold mapSet
  by_cases hany : m.any (fun kv => kv.1 = j)
  · simp [hany, mapGet, find?_map_replaceKey m j c k h]
  · simp [hany, mapGet, find?_append_nonmatching m j c k h]

/-- Folding `Map.set` over converters none of which carries the key leaves
the key's lookup unchanged. -/
theorem foldl_mapSet_untouched (chain : List DataConverterWithEncoding) (k : String)
    (h : ∀ c ∈ chain, c.encodingType ≠ k) (m : List (String × DataConverterWithEncoding)) :
    mapGet (chain.foldl (fun m c => mapSet m c.encodingType c) m) k = mapGet m k := by
  induction chain generalizing m with
  | nil => rfl
  | cons c rest ih =>
    have hc : c.encodingType ≠ k := h c (by simp)
    have hrest : ∀ c' ∈ rest, c'.encodingType ≠ k := fun c' hc' => h c' (by simp [hc'])
    simpa [List.foldl_cons, ih hrest] using mapGet_mapSet_other m c.encodingType c k hc

/-- With pairwise-distinct encoding names, the `converterByEncoding` fold
resolves a key to the unique chain member carrying it, for any initial
map. -/
theorem foldl_mapSet_unique :
    ∀ (chain : List DataConverterWithEncoding) (k : String) (c : DataConverterWithEncoding),
      (chain.map (fun c => c.encodingType)).Nodup → c ∈ chain → c.encodingType = k →
      ∀ m, mapGet (chain.foldl (fun m c => mapSet m c.encodingType c) m) k = some c := by
  intro chain
  induction chain with
  | nil => intro k c _ hc; simp at hc
  | cons c₀ rest ih =>
    intro k c hnd hc hk m
    rcases List.mem_cons.mp hc with rfl | hcr
    · have hni : c.encodingType ∉ rest.map (fun c => c.encodingType) :=
        (List.nodup_cons.mp hnd).1
      have hrest : ∀ c' ∈ rest, c'.encodingType ≠ k := by
        intro c' hc' he
        exact hni (by rw [hk, ← he]; exact List.mem_map_of_mem _ hc')
      simp only [List.foldl_cons]
      rw [foldl_mapSet_untouched rest k hrest]
      rw [← hk, mapGet_mapSet_self]
    · simp only [List.foldl_cons]
      exact ih k c (List.nodup_cons.mp hnd).2 hcr hk _

/-- C4: the composite `fromPayload` raises `ValueError` when the payload has
no metadata and when the metadata's encoding key names no codec of the
chain; otherwise it delegates to exactly the codec whose name equals the
encoding key — independent of the codecs' order in the chain (the selected
codec is the unique carrier of the name) and without inspecting the
payload's data (`selectedConverter` is a function of the metadata alone). -/
theorem compositeFromPayload_routes_by_encoding (chain : List DataConverterWithEncoding)
    (p : Payload) :
    (p.metadata = none →
      compositeFromPayload chain p = .error (.valueError "Missing payload metadata")) ∧
    (∀ m, p.metadata = some m →
      (∀ c ∈ chain, c.encodingType ≠ strOf (metaGet m METADATA_ENCODING_KEY)) →
      compositeFromPayload chain p =
        .error (.valueError ("Unknown encoding: " ++ strOf (metaGet m METADATA_ENCODING_KEY)))) ∧
    (∀ m c, p.metadata = some m → (chain.map (fun c => c.encodingType)).Nodup →
      c ∈ chain → c.encodingType = strOf (metaGet m METADATA_ENCODING_KEY) →
      compositeFromPayload chain p = c.fromPayload p) ∧
    (∀ c, selectedConverter chain p.metadata = some c →
      compositeFromPayload chain p = c.fromPayload p) := by
  refine ⟨fun h => ?_, fun m hm hnone => ?_, fun m c hm hnd hc hk => ?_, fun c hsel => ?_⟩
  · simp [compositeFromPayload, h]
  · have hlook : mapGet (converterByEncoding chain)
        (strOf (metaGet m METADATA_ENCODING_KEY)) = none := by
      rw [converterByEncoding, foldl_mapSet_untouched chain _ hnone]
      rfl
    simp [compositeFromPayload, hm, hlook]
  · have hlook : mapGet (converterByEncoding chain)
        (strOf (metaGet m METADATA_ENCODING_KEY)) = some c := by
      rw [converterByEncoding]
      exact foldl_mapSet_unique chain _ c hnd hc hk []
    simp [compositeFromPayload, hm, hlook]
  · cases hmeta : p.metadata with
    | none => simp [selectedConverter, hmeta] at hsel
    | some m =>
      rw [hmeta] at hsel
      simp only [selectedConverter] at hsel
      simp [compositeFromPayload, hmeta, hsel]

/-- Witness for C4: a metadata-less payload, an unknown encoding, and a
`json/plain` payload routed to the JSON codec of the default chain. -/
theorem compositeFromPayload_routes_by_encoding_witness :
    compositeFromPayload (defaultConverters none) ⟨none, none⟩ =
      .error (.valueError "Missing payload metadata") ∧
    compositeFromPayload (defaultConverters none)
        ⟨some [(METADATA_ENCODING_KEY, .utf8 "nope")], none⟩ =
      .error (.valueError ("Unknown encoding: " ++
        strOf (metaGet [(METADATA_ENCODING_KEY, .utf8 "nope")] METADATA_ENCODING_KEY))) ∧
    compositeFromPayload (defaultConverters none)
        ⟨some [(METADATA_ENCODING_KEY, .utf8 "json/plain")], some (.utf8Json .nullv)⟩ =
      fromPayload .JsonDataConverter
        ⟨some [(METADATA_ENCODING_KEY, .utf8 "json/plain")], some (.utf8Json .nullv)⟩ :=
  ⟨(compositeFromPayload_routes_by_encoding (defaultConverters none) ⟨none, none⟩).1 rfl,
   (compositeFromPayload_routes_by_encoding (defaultConverters none)
      ⟨some [(METADATA_ENCODING_KEY, .utf8 "nope")], none⟩).2.1 _ rfl (by decide),
   (compositeFromPayload_routes_by_encoding (defaultConverters none)
      ⟨some [(METADATA_ENCODING_KEY, .utf8 "json/plain")], some (.utf8Json .nullv)⟩).2.2.1
      _ .JsonDataConverter rfl (by decide) (by decide) (by decide)⟩

/-- C1: the scheduler feeds the sandbox exactly the activation's jobs,
re-ordered as four sub-batches — patch notifications, then signal
deliveries, then all remaining non-query jobs, then queries, each sub-batch
keeping its jobs' relative arrival order: the fed sequence is the stated
filter decomposition, a permutation of the job list that is sorted by the
fixed class ranking whatever the arrival order was. -/
theorem activation_processing_order (jobs : List WFJob) :
    processedJobs jobs =
      jobs.filter (fun j => j.notifyHasPatch.isSome) ++
        (jobs.filter (fun j => j.signalWorkflow.isSome && !j.notifyHasPatch.isSome) ++
          (jobs.filter (fun j =>
              !j.queryWorkflow.isSome && !j.signalWorkflow.isSome &&
                !j.notifyHasPatch.isSome) ++
            jobs.filter (fun j =>
              j.queryWorkflow.isSome && !j.signalWorkflow.isSome &&
                !j.notifyHasPatch.isSome))) ∧
    (processedJobs jobs).Perm jobs ∧
    (processedJobs jobs).Pairwise (fun a b => jobRank a ≤ jobRank b) := by
  have hnest : processedJobs jobs =
      jobs.filter (fun j => j.notifyHasPatch.isSome) ++
        ((jobs.filter (fun j => !j.notifyHasPatch.isSome)).filter
            (fun j => j.signalWorkflow.isSome) ++
          ((((jobs.filter (fun j => !j.notifyHasPatch.isSome)).filter
              (fun j => !j.signalWorkflow.isSome)).filter
                (fun j => !j.queryWorkflow.isSome)) ++
            ((jobs.filter (fun j => !j.notifyHasPatch.isSome)).filter
              (fun j => !j.signalWorkflow.isSome)).filter
                (fun j => j.queryWorkflow.isSome))) := by
    simp [processedJobs, activationBatches, List.partition_eq_filter_filter, Function.comp]
  have hfused := hnest
  rw [List.filter_filter, List.filter_filter, List.filter_filter, List.filter_filter,
    List.filter_filter] at hfused
  refine ⟨hfused, ?_, ?_⟩
  · rw [hnest]
    refine List.Perm.trans (List.Perm.append_left _ ?_)
      (List.filter_append_perm (fun j => j.notifyHasPatch.isSome) jobs)
    refine List.Perm.trans (List.Perm.append_left _ ?_)
      (List.filter_append_perm (fun j => j.signalWorkflow.isSome)
        (jobs.filter (fun j => !j.notifyHasPatch.isSome)))
    exact List.Perm.trans List.perm_append_comm
      (List.filter_append_perm (fun j : WFJob => j.queryWorkflow.isSome) _)
  · have r0 : ∀ j ∈ jobs.filter (fun x : WFJob => x.notifyHasPatch.isSome),
        jobRank j = 0 := by
      intro j hj
      have h := (List.mem_filter.mp hj).2
      simp [jobRank, h]
    have r1 : ∀ j ∈ jobs.filter
        (fun x : WFJob => x.signalWorkflow.isSome && !x.notifyHasPatch.isSome),
        jobRank j = 1 := by
      intro j hj
      have h := (List.mem_filter.mp hj).2
      simp at h
      simp [jobRank, h.1, h.2]
    have r2 : ∀ j ∈ jobs.filter (fun x : WFJob =>
        !x.queryWorkflow.isSome && !x.signalWorkflow.isSome && !x.notifyHasPatch.isSome),
        jobRank j = 2 := by
      intro j hj
      have h := (List.mem_filter.mp hj).2
      simp at h
      simp [jobRank, h.1.1, h.1.2, h.2]
    have r3 : ∀ j ∈ jobs.filter (fun x : WFJob =>
        x.queryWorkflow.isSome && !x.signalWorkflow.isSome && !x.notifyHasPatch.isSome),
        jobRank j = 3 := by
      intro j hj
      have h := (List.mem_filter.mp hj).2
      simp at h
      simp [jobRank, h.1.1, h.1.2, h.2]
    rw [hfused]
    rw [List.pairwise_append]
    refine ⟨List.pairwise_of_forall_mem_list (fun a ha b hb => ?_), ?_, fun a ha b hb => ?_⟩
    · rw [r0 a ha, r0 b hb]
    · rw [List.pairwise_append]
      refine ⟨List.pairwise_of_forall_mem_list (fun a ha b hb => ?_), ?_, fun a ha b hb => ?_⟩
      · rw [r1 a ha, r1 b hb]
      · rw [List.pairwise_append]
        refine ⟨List.pairwise_of_forall_mem_list (fun a ha b hb => ?_),
          List.pairwise_of_forall_mem_list (fun a ha b hb => ?_), fun a ha b hb => ?_⟩
        · rw [r2 a ha, r2 b hb]
        · rw [r3 a ha, r3 b hb]
        · rw [r2 a ha, r3 b hb]
          omega
      · rcases List.mem_append.mp hb with hb | hb
        · rw [r1 a ha, r2 b hb]
          omega
        · rw [r1 a ha, r3 b hb]
          omega
    · rw [r0 a ha]
      exact Nat.zero_le _

/-- The error of an `Except` is the head of its error list. -/
theorem errOpt_of_errOf {α : Type} (a : Except ConvErr α) : errOpt a = (errOf a).head? := by
  cases a <;> rfl

/-- Sequencing: if a prefix step reports the head of `seg` and every success
continuation reports the head of `tail`, their bind reports the head of
`seg ++ tail`. -/
theorem errOpt_bind_chain {α β : Type} (a : Except ConvErr α) (f : α → Except ConvErr β)
    (seg tail : List ConvErr) (ha : errOpt a = seg.head?)
    (hf : ∀ x, a = .ok x → errOpt (f x) = tail.head?) :
    errOpt (a >>= f) = (seg ++ tail).head? := by
  cases a with
  | error e =>
    cases seg with
    | nil => simp [errOpt] at ha
    | cons e' seg' =>
      simp [errOpt] at ha
      subst ha
      simp [exc_bind_error, errOpt]
  | ok x =>
    have hseg : seg = [] := by
      cases seg with
      | nil => rfl
      | cons e s => simp [errOpt] at ha
    subst hseg
    simpa [exc_bind_ok] using hf x rfl

/-- A pure final step neither adds nor masks errors. -/
theorem errOpt_bind_pureMap {α β : Type} (a : Except ConvErr α) (g : α → β) :
    errOpt (a >>= fun x => (pure (g x) : Except ConvErr β)) = errOpt a := by
  cases a <;> rfl

/-- A `.ok` final step neither adds nor masks errors. -/
theorem errOpt_bind_okMap {α β : Type} (a : Except ConvErr α) (g : α → β) :
    errOpt (a >>= fun x => (Except.ok (g x) : Except ConvErr β)) = errOpt a := by
  cases a <;> rfl

/-- Per-field error bookkeeping of each serialization step. -/
theorem serializeScheduleActivity_errors (chain : List DataConverterWithEncoding)
    (o : Option ScheduleActivityCmd) :
    errOpt (serializeScheduleActivity chain o) =
      (match o with
       | none => ([] : List ConvErr)
       | some c => errOf (serMap chain c.headerFields) ++
           errOf (serArray chain c.arguments)).head? := by
  cases o with
  | none => rfl
  | some c =>
    refine errOpt_bind_chain _ _ _ _ (errOpt_of_errOf _) ?_
    intro x _
    rw [errOpt_bind_okMap]
    exact errOpt_of_errOf _

/-- Per-field error bookkeeping of the `respondToQuery` step. -/
theorem serializeRespondToQuery_errors (chain : List DataConverterWithEncoding)
    (o : Option RespondToQueryCmd) :
    errOpt (serializeRespondToQuery chain o) =
      (match o with
       | none => ([] : List ConvErr)
       | some c => (match c.succeeded with
           | none => ([] : List ConvErr)
           | some s => errOf (serField chain s.response)) ++
           errOf (serErrField chain c.failed)).head? := by
  cases o with
  | none => rfl
  | some c =>
    refine errOpt_bind_chain _ _ _ _ ?_ ?_
    · cases c.succeeded with
      | none => rfl
      | some s =>
        unfold serializeQuerySucceeded
        rw [errOpt_bind_okMap]
        exact errOpt_of_errOf _
    · intro succ _
      rw [errOpt_bind_okMap]
      exact errOpt_of_errOf _

/-- Per-field error bookkeeping of the `continueAsNewWorkflowExecution`
step. -/
theorem serializeContinueAsNew_errors (chain : List DataConverterWithEncoding)
    (o : Option ContinueAsNewCmd) :
    errOpt (serializeContinueAsNew chain o) =
      (match o with
       | none => ([] : List ConvErr)
       | some c => errOf (serArray chain c.arguments) ++ (errOf (serMap chain c.memo) ++
           (errOf (serMap chain c.header) ++
             errOf (serMap chain c.searchAttributes)))).head? := by
  cases o with
  | none => rfl
  | some c =>
    refine errOpt_bind_chain _ _ _ _ (errOpt_of_errOf _) ?_
    intro x _
    refine errOpt_bind_chain _ _ _ _ (errOpt_of_errOf _) ?_
    intro x _
    refine errOpt_bind_chain _ _ _ _ (errOpt_of_errOf _) ?_
    intro x _
    rw [errOpt_bind_okMap]
    exact errOpt_of_errOf _

/-- Per-field error bookkeeping of the `startChildWorkflowExecution` step. -/
theorem serializeStartChild_errors (chain : List DataConverterWithEncoding)
    (o : Option StartChildCmd) :
    errOpt (serializeStartChild chain o) =
      (match o with
       | none => ([] : List ConvErr)
       | some c => errOf (serArray chain c.input) ++ (errOf (serMap chain c.memo) ++
           (errOf (serMap chain c.header) ++
             errOf (serMap chain c.searchAttributes)))).head? := by
  cases o with
  | none => rfl
  | some c =>
    refine errOpt_bind_chain _ _ _ _ (errOpt_of_errOf _) ?_
    intro x _
    refine errOpt_bind_chain _ _ _ _ (errOpt_of_errOf _) ?_
    intro x _
    refine errOpt_bind_chain _ _ _ _ (errOpt_of_errOf _) ?_
    intro x _
    rw [errOpt_bind_okMap]
    exact errOpt_of_errOf _

/-- The in-place field serialization of one command fails exactly with the
first failing field of the independent per-field walk. -/
theorem serializeCommand_errors (chain : List DataConverterWithEncoding) (cmd : WFCommand) :
    errOpt (serializeCommand chain cmd) = (commandFieldErrors chain cmd).head? := by
  unfold serializeCommand commandFieldErrors
  refine errOpt_bind_chain _ _ _ _ (serializeScheduleActivity_errors chain _) ?_
  intro sa _
  refine errOpt_bind_chain _ _ _ _ (serializeRespondToQuery_errors chain _) ?_
  intro rq _
  refine errOpt_bind_chain _ _ _ _ ?_ ?_
  · cases cmd.completeWorkflowExecution with
    | none => rfl
    | some c =>
      unfold serializeCompleteWF
      rw [errOpt_bind_okMap]
      exact errOpt_of_errOf _
  · intro cw _
    refine errOpt_bind_chain _ _ _ _ ?_ ?_
    · cases cmd.failWorkflowExecution with
      | none => rfl
      | some c =>
        unfold serializeFailWF
        rw [errOpt_bind_okMap]
        exact errOpt_of_errOf _
    · intro fw _
      refine errOpt_bind_chain _ _ _ _ (serializeContinueAsNew_errors chain _) ?_
      intro can _
      refine errOpt_bind_chain _ _ _ _ (serializeStartChild_errors chain _) ?_
      intro sc _
      rw [errOpt_bind_okMap]
      cases cmd.signalExternalWorkflowExecution with
      | none => rfl
      | some c =>
        unfold serializeSignalExternal
        rw [errOpt_bind_okMap]
        exact errOpt_of_errOf _

/-- The command list serialization fails exactly with the first failing
field across all commands, in listing order. -/
theorem serializeCommands_errors (chain : List DataConverterWithEncoding)
    (cmds : List (Option WFCommand)) :
    errOpt (cmds.mapM (serializeCommandOpt chain)) =
      ((cmds.map (commandOptFieldErrors chain)).flatten).head? := by
  induction cmds with
  | nil => rfl
  | cons c cs ih =>
    rw [List.mapM_cons]
    simp only [List.map_cons, List.flatten_cons]
    refine errOpt_bind_chain _ _ _ _ ?_ ?_
    · cases c with
      | none => rfl
      | some cmd =>
        unfold serializeCommandOpt
        rw [errOpt_bind_okMap]
        exact serializeCommand_errors chain cmd
    · intro x _
      rw [errOpt_bind_pureMap]
      exact ih

/-- C6: `serializeCompletion` fails exactly when some declared payload- or
failure-bearing field fails to encode, and then it fails with the first
failing field's error (so with a single failing field, with that error); in
particular no completion record — no partially-encoded command list — is
produced on any field failure. -/
theorem serializeCompletion_atomic (chain : List DataConverterWithEncoding)
    (completion : WFCompletion) :
    errOpt (serializeCompletion chain completion) =
      (completionFieldErrors chain completion).head? ∧
    (∀ e, completionFieldErrors chain completion = [e] →
      serializeCompletion chain completion = .error e) := by
  have main : errOpt (serializeCompletion chain completion) =
      (completionFieldErrors chain completion).head? := by
    unfold serializeCompletion completionFieldErrors
    refine errOpt_bind_chain _ _ _ _ ?_ ?_
    · cases completion.successful with
      | none => rfl
      | some s =>
        cases s with
        | mk cmds0 =>
          cases cmds0 with
          | none => rfl
          | some cmds =>
            unfold serializeSuccess
            rw [errOpt_bind_okMap]
            exact serializeCommands_errors chain cmds
    · intro succ _
      rw [errOpt_bind_okMap]
      exact errOpt_of_errOf _
  refine ⟨main, fun e he => ?_⟩
  rw [he] at main
  cases hres : serializeCompletion chain completion with
  | ok out =>
    rw [hres] at main
    simp [errOpt] at main
  | error e' =>
    rw [hres] at main
    simp [errOpt] at main
    rw [main]

/-- Witness for C6: a completion whose single command carries an
unencodable `undefined` result under a JSON-only chain. -/
theorem serializeCompletion_atomic_witness :
    serializeCompletion [DataConverterWithEncoding.JsonDataConverter]
      { runId := some "r",
        successful := some ⟨some [some
          { emptyCommand with completeWorkflowExecution := some ⟨some (.val .undefV)⟩ }]⟩,
        failed := none } =
      .error (.valueError ("Cannot serialize " ++ displayJsVal .undefV)) :=
  (serializeCompletion_atomic [DataConverterWithEncoding.JsonDataConverter]
    { runId := some "r",
      successful := some ⟨some [some
        { emptyCommand with completeWorkflowExecution := some ⟨some (.val .undefV)⟩ }]⟩,
      failed := none }).2 _ rfl

/-- C7: when the batch loop completes and the unhandled-rejection slot holds
a truthy defect at the final check, `activate` discards the sandbox's
completion — whatever commands `concludeActivation` accumulated — and
returns a single failed completion carrying the defect converted through the
failure mapping. -/
theorem vmActivate_unhandled_rejection {St : Type} (chain : List DataConverterWithEncoding)
    (module : WorkflowModule St) (st0 : St) (activation : WFActivation)
    (jobs : List WFJob) (err : JsError) (f : Failure) (stF : St)
    (hjobs : activation.jobs = some jobs)
    (hrun : runBatches chain module activation (activationBatches jobs) 0 st0 = .ok stF)
    (htruthy : truthyJsError err = true)
    (hconv : errorToFailure chain err = .ok f) :
    vmActivate chain module (some ()) st0 activation (some err) =
      .ok (.delimited { runId := activation.runId, successful := none,
                        failed := some (.wrap (some (.fail f))) }) := by
  unfold vmActivate
  simp [hjobs, hrun, htruthy, hconv, exc_bind_ok]

/-- Witness for C7: an empty job list (the loop trivially succeeds), a
sandbox whose conclusion reports a successful command list, and a plain
thrown error in the rejection slot; the returned completion is failed-only,
the sandbox's commands are gone. -/
theorem vmActivate_unhandled_rejection_witness :
    vmActivate [] ⟨fun _ _ st => .ok (st, 0), fun st => st,
        fun _ => { runId := none, successful := some ⟨some []⟩, failed := none }⟩
      (some ()) () ⟨some "run", none, some []⟩
      (some (.plainError "Error" "boom" none)) =
      .ok (.delimited { runId := some "run", successful := none,
                        failed := some (.wrap (some (.fail
                          (.mk (failureCommon (some "boom") none) none)))) }) :=
  vmActivate_unhandled_rejection [] _ () ⟨some "run", none, some []⟩ []
    (.plainError "Error" "boom" none) (.mk (failureCommon (some "boom") none) none) ()
    rfl rfl rfl rfl

end SdkNode
